import Mathlib

/-!
Asteroids OOP: verification development.

A shallow embedding of `src/ConsoleApplication1/main.cpp`.

Conventions of the embedding:

* `float` values are exact rationals (`ℚ`): every operation is the exact one.
* `int` values are `Int`; an `int` subtraction on a caller-supplied amount, which can
  leave the 32-bit range, is wrapped explicitly with `wrapInt32`. The destroyed
  counter, which only ever grows by one per destroyed asteroid, is kept exact.
* `std::vector<T>` is `List T` in the same order; `erase` and `remove_if` keep the
  order of the remaining elements.
* values obtained from the rendering/input surface (frame time, keys, random draws,
  texture widths, libm functions) are inputs of the functions that read them.
-/

namespace Asteroids

/-! ## Machine integers -/

/-- Two's complement wrap-around of a 32-bit `int`. -/
def wrapInt32 (x : Int) : Int := (x + 2147483648) % 4294967296 - 2147483648

/-- The values an `int` can hold. -/
def isInt32 (x : Int) : Prop := -2147483648 ≤ x ∧ x ≤ 2147483647

instance (x : Int) : Decidable (isInt32 x) := by unfold isInt32; infer_instance

/-! ## raylib / raymath value types -/

/-- The raylib `Vector2`. -/
structure Vector2 where
  x : ℚ
  y : ℚ
deriving DecidableEq

/-- The raymath `Vector2Add`. -/
def Vector2Add (a b : Vector2) : Vector2 := ⟨a.x + b.x, a.y + b.y⟩

/-- The raymath `Vector2Subtract`. -/
def Vector2Subtract (a b : Vector2) : Vector2 := ⟨a.x - b.x, a.y - b.y⟩

/-- The raymath `Vector2Scale`. -/
def Vector2Scale (v : Vector2) (k : ℚ) : Vector2 := ⟨v.x * k, v.y * k⟩

/-- The test `Vector2Distance(a, b) < r` in exact arithmetic: the distance is the
square root of `dx*dx + dy*dy`, which is below `r` exactly when `r` is positive and
the squared distance is below `r*r`. -/
def distLt (a b : Vector2) (r : ℚ) : Bool :=
  decide (0 < r ∧ (a.x - b.x) * (a.x - b.x) + (a.y - b.y) * (a.y - b.y) < r * r)

/-- The libm functions and constants the program uses (`sinf`, `cosf`, `sqrtf`,
`PI`, `DEG2RAD`); their values are not rational, so they are taken as given. -/
structure Libm where
  sinf : ℚ → ℚ
  cosf : ℚ → ℚ
  sqrtf : ℚ → ℚ
  PI : ℚ
  DEG2RAD : ℚ

/-- The raymath `Vector2Normalize`: scales by the inverse length when the length is
positive, and gives the zero vector otherwise. -/
def Vector2Normalize (m : Libm) (v : Vector2) : Vector2 :=
  let length := m.sqrtf (v.x * v.x + v.y * v.y)
  if 0 < length then
    let ilength := 1 / length
    ⟨v.x * ilength, v.y * ilength⟩
  else ⟨0, 0⟩

/-- The struct `TransformA`. -/
structure TransformA where
  position : Vector2
  rotation : ℚ
deriving DecidableEq

/-- The struct `Physics`. -/
structure Physics where
  velocity : Vector2
  rotationSpeed : ℚ
deriving DecidableEq

/-- The singleton `Renderer`: the screen size set by `Init`. -/
structure Renderer where
  screenW : Int
  screenH : Int
deriving DecidableEq

/-- `Renderer::Width`. -/
def Renderer.Width (r : Renderer) : Int := r.screenW

/-- `Renderer::Height`. -/
def Renderer.Height (r : Renderer) : Int := r.screenH

/-- `enum class WeaponType { LASER, BULLET, ROCKET, COUNT }`. -/
inductive WeaponType where
  | LASER
  | BULLET
  | ROCKET
  | COUNT
deriving DecidableEq, Repr

/-! ## Ship hierarchy -/

/-- The class `Ship` together with the fields of its one subclass `PlayerShip`
(`texture.width` and `scale`). -/
structure Ship where
  transform : TransformA
  hp : Int
  speed : ℚ
  alive : Bool
  fireRateLaser : ℚ
  fireRateBullet : ℚ
  fireRateRocket : ℚ
  spacingLaser : ℚ
  spacingBullet : ℚ
  spacingRocket : ℚ
  textureWidth : Int
  scale : ℚ
deriving DecidableEq

/-- `PlayerShip::PlayerShip(w, h)`, the `Ship` constructor followed by the subclass
body; `texW` is the width of the texture `LoadTexture("spaceship1.png")` returns. -/
def PlayerShip (texW : Int) (w h : Int) : Ship :=
  { transform := { position := ⟨(w : ℚ) * (1 / 2), (h : ℚ) * (1 / 2)⟩, rotation := 0 }
    hp := 100
    speed := 250
    alive := true
    fireRateLaser := 20
    fireRateBullet := 15
    spacingLaser := 40
    spacingBullet := 200
    fireRateRocket := 2
    spacingRocket := 500
    textureWidth := texW
    scale := 1 / 4 }

/-- `Ship::TakeDamage`. -/
def Ship.TakeDamage (s : Ship) (dmg : Int) : Ship :=
  if !s.alive then s
  else
    let hp1 := wrapInt32 (s.hp - dmg)
    let hp2 := if hp1 > 100 then 100 else hp1
    { s with hp := hp2, alive := if hp2 ≤ 0 then false else s.alive }

/-- `Ship::IsAlive`. -/
def Ship.IsAlive (s : Ship) : Bool := s.alive

/-- `Ship::GetPosition`. -/
def Ship.GetPosition (s : Ship) : Vector2 := s.transform.position

/-- `PlayerShip::GetRadius`. -/
def Ship.GetRadius (s : Ship) : ℚ := ((s.textureWidth : ℚ) * s.scale) * (1 / 2)

/-- `Ship::GetHP`. -/
def Ship.GetHP (s : Ship) : Int := s.hp

/-- `Ship::GetFireRate`. -/
def Ship.GetFireRate (s : Ship) (wt : WeaponType) : ℚ :=
  if wt = WeaponType.ROCKET then s.fireRateRocket
  else if wt = WeaponType.LASER then s.fireRateLaser
  else if wt = WeaponType.BULLET then s.fireRateBullet
  else s.fireRateBullet

/-- `Ship::GetSpacing`. -/
def Ship.GetSpacing (s : Ship) (wt : WeaponType) : ℚ :=
  if wt = WeaponType.ROCKET then s.spacingRocket
  else if wt = WeaponType.LASER then s.spacingLaser
  else if wt = WeaponType.BULLET then s.spacingBullet
  else s.fireRateBullet

/-! ## Utils -/

/-- `Utils::RandomFloat(min, max)`; `r` is the value `rand()` returned and `randMax`
is `RAND_MAX`. -/
def RandomFloat (randMax : Nat) (r : Nat) (min max : ℚ) : ℚ :=
  min + (r : ℚ) / (randMax : ℚ) * (max - min)

/-! ## Projectiles -/

/-- The class `Projectile`. -/
structure Projectile where
  transform : TransformA
  physics : Physics
  baseDamage : Int
  type : WeaponType
  isEnemy : Bool
deriving DecidableEq

/-- The constructor `Projectile(pos, vel, dmg, wt, isEnemy)`. -/
def Projectile.new (pos vel : Vector2) (dmg : Int) (wt : WeaponType) (isEnemy : Bool) :
    Projectile :=
  { transform := { position := pos, rotation := 0 }
    physics := { velocity := vel, rotationSpeed := 0 }
    baseDamage := dmg
    type := wt
    isEnemy := isEnemy }

/-- `Projectile::Update`: the moved projectile and the returned flag. -/
def Projectile.Update (rd : Renderer) (dt : ℚ) (p : Projectile) : Projectile × Bool :=
  let pos := Vector2Add p.transform.position (Vector2Scale p.physics.velocity dt)
  let p1 := { p with transform := { p.transform with position := pos } }
  if pos.x < 0 ∨ pos.x > (rd.Width : ℚ) ∨ pos.y < 0 ∨ pos.y > (rd.Height : ℚ) then
    (p1, true)
  else (p1, false)

/-- `Projectile::GetPosition`. -/
def Projectile.GetPosition (p : Projectile) : Vector2 := p.transform.position

/-- `Projectile::GetRadius`. -/
def Projectile.GetRadius (p : Projectile) : ℚ :=
  if p.type = WeaponType.BULLET then 5 else 2

/-- `Projectile::GetDamage`. -/
def Projectile.GetDamage (p : Projectile) : Int := p.baseDamage

/-- The factory `MakeProjectile(wt, pos, speed, angleDeg)`. -/
def MakeProjectile (m : Libm) (wt : WeaponType) (pos : Vector2) (speed : ℚ)
    (angleDeg : ℚ) : Projectile :=
  let angleRad := m.DEG2RAD * angleDeg
  let vel : Vector2 := ⟨m.sinf angleRad * speed, -(m.cosf angleRad) * speed⟩
  let dmg : Int :=
    match wt with
    | WeaponType.LASER => 10
    | WeaponType.BULLET => 30
    | WeaponType.ROCKET => 200
    | WeaponType.COUNT => 0
  Projectile.new pos vel dmg wt false

/-! ## Asteroid hierarchy -/

/-- `enum class Asteroid::Type`. -/
inductive AsteroidType where
  | TRIANGLE
  | SQUARE
  | PENTAGON
  | OCTAGON
  | BOSS
deriving DecidableEq, Repr

/-- The integer value of an enumerator of `Asteroid::Type`. -/
def AsteroidType.val : AsteroidType → Int
  | AsteroidType.TRIANGLE => 0
  | AsteroidType.SQUARE => 1
  | AsteroidType.PENTAGON => 2
  | AsteroidType.OCTAGON => 3
  | AsteroidType.BOSS => 4

/-- The fields `BossAsteroid` adds to `Asteroid` (those the simulation reads). -/
structure BossFields where
  movingRight : Bool
  horizontalSpeed : ℚ
  textureWidth : Int
  scale : ℚ
  shootTimer : ℚ
  shootInterval : ℚ
deriving DecidableEq

/-- The dynamic class of an asteroid object. -/
inductive AsteroidClass where
  | Triangle
  | Square
  | Pentagon
  | Octagon
  | Boss (b : BossFields)
deriving DecidableEq

/-- The class `Asteroid`; `cls` is the dynamic class, `size` is `render.size`, and
`asteroidType` holds the integer value of the field (it has no initializer, so before
the subclass constructor assigns it, it need not be the value of an enumerator). -/
structure Asteroid where
  cls : AsteroidClass
  hp : Int
  baseHp : Int
  asteroidType : Int
  transform : TransformA
  physics : Physics
  size : Int
  baseDamage : Int
deriving DecidableEq

/-- `dynamic_cast<BossAsteroid*>(a) != nullptr`. -/
def Asteroid.isBoss (a : Asteroid) : Bool :=
  match a.cls with
  | AsteroidClass.Boss _ => true
  | _ => false

/-- `Asteroid::GetPosition`. -/
def Asteroid.GetPosition (a : Asteroid) : Vector2 := a.transform.position

/-- The base-class `Asteroid::GetRadius`. -/
def Asteroid.baseGetRadius (size : Int) : ℚ := 16 * (size : ℚ)

/-- The virtual `GetRadius`: `BossAsteroid` overrides it. -/
def Asteroid.GetRadius (a : Asteroid) : ℚ :=
  match a.cls with
  | AsteroidClass.Boss b => ((b.textureWidth : ℚ) * b.scale) * (2 / 5)
  | _ => Asteroid.baseGetRadius a.size

/-- `Asteroid::GetDamage`. -/
def Asteroid.GetDamage (a : Asteroid) : Int := a.baseDamage * a.size

/-- `Asteroid::GetSize`. -/
def Asteroid.GetSize (a : Asteroid) : Int := a.size

/-- `Asteroid::TakeDamage`. -/
def Asteroid.TakeDamage (a : Asteroid) (dmg : Int) : Asteroid :=
  { a with hp := wrapInt32 (a.hp - dmg) }

/-- `Asteroid::IsDestroyed`. -/
def Asteroid.IsDestroyed (a : Asteroid) : Bool := decide (a.hp ≤ 0)

/-- `Asteroid::GetHP`. -/
def Asteroid.GetHP (a : Asteroid) : Int := a.hp

/-- What the calls of `GetRandomValue` and `rand` in `Asteroid::init` return, in
program order, and `rawType`: the content of the field `asteroidType` while `init`
runs. `init` is called from the base-class constructor, before the body of the
subclass constructor assigns the field, so this content is not fixed by the program. -/
structure InitDraws where
  sizeDraw : Fin 3
  edgeDraw : Fin 4
  posRand : Nat
  angRand : Nat
  radRand : Nat
  speedRand : Nat
  rotSpeedRand : Nat
  rotationRand : Nat
  rawType : Int

/-- `Asteroid::SPEED_MIN`. -/
def SPEED_MIN : ℚ := 125
/-- `Asteroid::SPEED_MAX`. -/
def SPEED_MAX : ℚ := 250
/-- `Asteroid::ROT_MIN`. -/
def ROT_MIN : ℚ := 50
/-- `Asteroid::ROT_MAX`. -/
def ROT_MAX : ℚ := 240

/-- The `switch (asteroidType)` of `Asteroid::init`, on the integer value of the
field; the case `BOSS` and any value that is no enumerator leave `typeBonus` at 0. -/
def initTypeBonus (rawType : Int) : Int :=
  if rawType = AsteroidType.TRIANGLE.val then 10
  else if rawType = AsteroidType.SQUARE.val then 30
  else if rawType = AsteroidType.PENTAGON.val then 50
  else if rawType = AsteroidType.OCTAGON.val then 70
  else 0

/-- `Asteroid::Asteroid(screenW, screenH)`, that is `Asteroid::init`, for an object
whose dynamic class will be `cls`. Inside the base-class constructor the virtual
`GetRadius` is the base-class one. The fields the subclass constructor assigns
afterwards hold their values from before: `baseDamage` its default 0, `asteroidType`
the content `d.rawType`. -/
def Asteroid.init (m : Libm) (randMax : Nat) (cls : AsteroidClass)
    (screenW screenH : Int) (d : InitDraws) : Asteroid :=
  let size : Int := 2 ^ d.sizeDraw.val
  let radius := Asteroid.baseGetRadius size
  let position : Vector2 :=
    match d.edgeDraw with
    | 0 => ⟨RandomFloat randMax d.posRand 0 screenW, -radius⟩
    | 1 => ⟨(screenW : ℚ) + radius, RandomFloat randMax d.posRand 0 screenH⟩
    | 2 => ⟨RandomFloat randMax d.posRand 0 screenW, (screenH : ℚ) + radius⟩
    | _ => ⟨-radius, RandomFloat randMax d.posRand 0 screenH⟩
  let maxOff : ℚ := min (screenW : ℚ) (screenH : ℚ) * (1 / 10)
  let ang := RandomFloat randMax d.angRand 0 (2 * m.PI)
  let rad := RandomFloat randMax d.radRand 0 maxOff
  let center : Vector2 :=
    ⟨(screenW : ℚ) * (1 / 2) + m.cosf ang * rad, (screenH : ℚ) * (1 / 2) + m.sinf ang * rad⟩
  let dir := Vector2Normalize m (Vector2Subtract center position)
  let velocity := Vector2Scale dir (RandomFloat randMax d.speedRand SPEED_MIN SPEED_MAX)
  let rotationSpeed := RandomFloat randMax d.rotSpeedRand ROT_MIN ROT_MAX
  let rotation := RandomFloat randMax d.rotationRand 0 360
  let asteroidType := d.rawType
  let typeBonus := initTypeBonus asteroidType
  let baseHp := size * 20 + typeBonus
  { cls := cls
    hp := baseHp
    baseHp := baseHp
    asteroidType := asteroidType
    transform := { position := position, rotation := rotation }
    physics := { velocity := velocity, rotationSpeed := rotationSpeed }
    size := size
    baseDamage := 0 }

/-- `TriangleAsteroid::TriangleAsteroid(w, h)`. -/
def TriangleAsteroid (m : Libm) (randMax : Nat) (w h : Int) (d : InitDraws) : Asteroid :=
  { Asteroid.init m randMax AsteroidClass.Triangle w h d with
    baseDamage := 5, asteroidType := AsteroidType.TRIANGLE.val }

/-- `SquareAsteroid::SquareAsteroid(w, h)`. -/
def SquareAsteroid (m : Libm) (randMax : Nat) (w h : Int) (d : InitDraws) : Asteroid :=
  { Asteroid.init m randMax AsteroidClass.Square w h d with
    baseDamage := 10, asteroidType := AsteroidType.SQUARE.val }

/-- `PentagonAsteroid::PentagonAsteroid(w, h)`. -/
def PentagonAsteroid (m : Libm) (randMax : Nat) (w h : Int) (d : InitDraws) : Asteroid :=
  { Asteroid.init m randMax AsteroidClass.Pentagon w h d with
    baseDamage := 15, asteroidType := AsteroidType.PENTAGON.val }

/-- `OctagonAsteroid::OctagonAsteroid(w, h)`. -/
def OctagonAsteroid (m : Libm) (randMax : Nat) (w h : Int) (d : InitDraws) : Asteroid :=
  { Asteroid.init m randMax AsteroidClass.Octagon w h d with
    baseDamage := 15, asteroidType := AsteroidType.OCTAGON.val }

/-- `enum class AsteroidShape`. -/
inductive AsteroidShape where
  | TRIANGLE
  | SQUARE
  | PENTAGON
  | OCTAGON
  | RANDOM
deriving DecidableEq, Repr

/-- The factory `MakeAsteroid(w, h, shape)`; `shapeDraw` is what
`GetRandomValue(0, 3)` returns in the `default` branch, which calls the factory again
with `shapes[randomIndex]`. -/
def MakeAsteroid (m : Libm) (randMax : Nat) (w h : Int) (shape : AsteroidShape)
    (shapeDraw : Fin 4) (d : InitDraws) : Asteroid :=
  match shape with
  | AsteroidShape.TRIANGLE => TriangleAsteroid m randMax w h d
  | AsteroidShape.SQUARE => SquareAsteroid m randMax w h d
  | AsteroidShape.PENTAGON => PentagonAsteroid m randMax w h d
  | AsteroidShape.OCTAGON => OctagonAsteroid m randMax w h d
  | AsteroidShape.RANDOM =>
    match shapeDraw with
    | 0 => TriangleAsteroid m randMax w h d
    | 1 => SquareAsteroid m randMax w h d
    | 2 => PentagonAsteroid m randMax w h d
    | _ => OctagonAsteroid m randMax w h d

/-- `BossAsteroid::BossAsteroid(w, h, bossProjectilesRef)`; `texW` is the width of
the texture `LoadTexture("boss.png")` returns. The reference to the shared vector is
passed to `Update` instead of being stored. -/
def BossAsteroid (m : Libm) (randMax : Nat) (texW : Int) (w h : Int) (d : InitDraws) :
    Asteroid :=
  let b : BossFields :=
    { movingRight := true, horizontalSpeed := 100, textureWidth := texW, scale := 3 / 10
      shootTimer := 0, shootInterval := 2 }
  let a := Asteroid.init m randMax (AsteroidClass.Boss b) w h d
  { a with
    baseDamage := 50
    baseHp := 10000
    hp := 10000
    asteroidType := AsteroidType.BOSS.val
    transform := { position := ⟨(w : ℚ) * (1 / 2), -100⟩, rotation := 0 }
    physics := { a.physics with velocity := ⟨0, 50⟩ } }

/-- The base-class `Asteroid::Update`. -/
def Asteroid.baseUpdate (rd : Renderer) (dt : ℚ) (a : Asteroid) : Asteroid × Bool :=
  let pos := Vector2Add a.transform.position (Vector2Scale a.physics.velocity dt)
  let rot := a.transform.rotation + a.physics.rotationSpeed * dt
  let a1 := { a with transform := { position := pos, rotation := rot } }
  if pos.x < -a1.GetRadius ∨ pos.x > (rd.Width : ℚ) + a1.GetRadius ∨
      pos.y < -a1.GetRadius ∨ pos.y > (rd.Height : ℚ) + a1.GetRadius then
    (a1, false)
  else (a1, true)

/-- `BossAsteroid::Update` for a boss with fields `b`: the updated boss, the returned
flag and the shared vector `bossProjectiles`. -/
def BossAsteroid.Update (rd : Renderer) (dt : ℚ) (a : Asteroid) (b : BossFields)
    (bossProjectiles : List Projectile) : Asteroid × Bool × List Projectile :=
  let shootTimer := b.shootTimer + dt
  let pos := a.transform.position
  let moved : Vector2 × Bool :=
    if pos.y < 200 then (⟨pos.x, pos.y + a.physics.velocity.y * dt⟩, b.movingRight)
    else if b.movingRight then
      let x1 := pos.x + b.horizontalSpeed * dt
      (⟨x1, pos.y⟩, if x1 > (rd.Width : ℚ) - 300 then false else b.movingRight)
    else
      let x1 := pos.x - b.horizontalSpeed * dt
      (⟨x1, pos.y⟩, if x1 < 300 then true else b.movingRight)
  let fired := decide (shootTimer ≥ b.shootInterval)
  let bossProjectiles1 :=
    if fired then
      bossProjectiles ++
        [Projectile.new ⟨moved.1.x + 20, moved.1.y⟩ ⟨0, 900⟩ 40 WeaponType.BULLET true]
    else bossProjectiles
  let b1 : BossFields :=
    { b with movingRight := moved.2, shootTimer := if fired then 0 else shootTimer }
  ({ a with cls := AsteroidClass.Boss b1
            transform := { a.transform with position := moved.1 } },
    true, bossProjectiles1)

/-- The virtual `Update`, dispatched on the dynamic class. -/
def Asteroid.Update (rd : Renderer) (dt : ℚ) (a : Asteroid)
    (bossProjectiles : List Projectile) : Asteroid × Bool × List Projectile :=
  match a.cls with
  | AsteroidClass.Boss b => BossAsteroid.Update rd dt a b bossProjectiles
  | _ => ((Asteroid.baseUpdate rd dt a).1, (Asteroid.baseUpdate rd dt a).2, bossProjectiles)

/-! ## Fire control (the block `// Shooting` of `Application::Run`) -/

/-- The libm `fmodf(x, y)`: `x - n*y` with `n` the quotient `x/y` truncated toward
zero. -/
def fmodf (x y : ℚ) : ℚ :=
  let q := x / y
  x - (if 0 ≤ q then (Rat.floor q : ℚ) else -(Rat.floor (-q) : ℚ)) * y

/-- The body of `while (shotTimer >= interval)` up to the timer update: the
`push_back` calls of one shot event. The first call leaves `angleDeg` at its default
`0.f`. -/
def shotEvent (m : Libm) (player : Ship) (currentWeapon : WeaponType) (projSpeed : ℚ)
    (tripleShotActive : Bool) (projectiles : List Projectile) : List Projectile :=
  let p : Vector2 := ⟨player.GetPosition.x, player.GetPosition.y - player.GetRadius⟩
  let ps1 := projectiles ++ [MakeProjectile m currentWeapon p projSpeed 0]
  let ps2 := ps1 ++ [MakeProjectile m currentWeapon p projSpeed 0]
  if tripleShotActive then
    (ps2 ++ [MakeProjectile m currentWeapon p projSpeed (-15)])
      ++ [MakeProjectile m currentWeapon p projSpeed 15]
  else ps2

/-- The loop `while (shotTimer >= interval) { ...; shotTimer -= interval; }` with an
iteration budget: `none` when the budget is used up and the condition still holds.
The result is the timer, the projectiles and the number of iterations run. -/
def shotLoop (m : Libm) (player : Ship) (currentWeapon : WeaponType) (projSpeed : ℚ)
    (tripleShotActive : Bool) (interval : ℚ) :
    Nat → ℚ → List Projectile → Option (ℚ × List Projectile × Nat)
  | 0, shotTimer, projectiles =>
    if shotTimer ≥ interval then none else some (shotTimer, projectiles, 0)
  | fuel + 1, shotTimer, projectiles =>
    if shotTimer ≥ interval then
      match shotLoop m player currentWeapon projSpeed tripleShotActive interval fuel
          (shotTimer - interval)
          (shotEvent m player currentWeapon projSpeed tripleShotActive projectiles) with
      | none => none
      | some (t, ps, n) => some (t, ps, n + 1)
    else some (shotTimer, projectiles, 0)

/-- The block `// Shooting`: timer, projectiles and the number of shot events of this
frame; `keySpace` is `IsKeyDown(KEY_SPACE)`. -/
def shootingBlock (m : Libm) (fuel : Nat) (player : Ship) (currentWeapon : WeaponType)
    (tripleShotActive : Bool) (dt : ℚ) (keySpace : Bool) (shotTimer : ℚ)
    (projectiles : List Projectile) : Option (ℚ × List Projectile × Nat) :=
  if player.IsAlive && keySpace then
    let shotTimer1 := shotTimer + dt
    let interval := 1 / player.GetFireRate currentWeapon
    let projSpeed := player.GetSpacing currentWeapon * player.GetFireRate currentWeapon
    shotLoop m player currentWeapon projSpeed tripleShotActive interval fuel shotTimer1
      projectiles
  else
    let maxInterval := 1 / player.GetFireRate currentWeapon
    some (if shotTimer > maxInterval then fmodf shotTimer maxInterval else shotTimer,
      projectiles, 0)

/-- What the rest of the loop hands to the block `// Shooting` in one frame: the frame
time, the fire key, the player, the triple-shot flag and the projectile vector. -/
structure FireFrame where
  dt : ℚ
  keySpace : Bool
  player : Ship
  tripleShotActive : Bool
  projectiles : List Projectile

/-- The block `// Shooting` over successive frames: `shotTimer` is threaded from frame
to frame (nothing else in `Run` writes it); the result is the final timer, the total
number of shot events and the total number of projectiles appended. -/
def fireRun (m : Libm) (currentWeapon : WeaponType) (fuel : Nat) :
    List FireFrame → ℚ → Option (ℚ × Nat × Nat)
  | [], shotTimer => some (shotTimer, 0, 0)
  | f :: fs, shotTimer =>
    match shootingBlock m fuel f.player currentWeapon f.tripleShotActive f.dt f.keySpace
        shotTimer f.projectiles with
    | none => none
    | some (t1, ps1, n1) =>
      match fireRun m currentWeapon fuel fs t1 with
      | none => none
      | some (t2, n, k) => some (t2, n1 + n, (ps1.length - f.projectiles.length) + k)

/-! ## Pickups and damage popups -/

/-- `enum class Pickup::Type`. -/
inductive PickupType where
  | HEALTH
  | TRIPLESHOT
deriving DecidableEq, Repr

/-- The class `Pickup`. -/
structure Pickup where
  type : PickupType
  position : Vector2
  radius : ℚ
  lifetime : ℚ
deriving DecidableEq

/-- `Pickup::HEALTH_SCALE`. -/
def HEALTH_SCALE : ℚ := 1 / 5
/-- `Pickup::TRIPLE_SCALE`. -/
def TRIPLE_SCALE : ℚ := 1 / 10
/-- `Pickup::COLLISION_SCALE`. -/
def COLLISION_SCALE : ℚ := 1 / 10

/-- The constructor `Pickup(pos, t)`; `heartW` and `tripleW` are the widths of the
textures "heart.png" and "exp.png". -/
def Pickup.new (heartW tripleW : Int) (pos : Vector2) (t : PickupType) : Pickup :=
  { type := t
    position := pos
    lifetime := 10
    radius :=
      match t with
      | PickupType.HEALTH => ((heartW : ℚ) * HEALTH_SCALE) * (1 / 2) * COLLISION_SCALE
      | PickupType.TRIPLESHOT => ((tripleW : ℚ) * TRIPLE_SCALE) * (1 / 2) * COLLISION_SCALE }

/-- `Pickup::Update`: the updated pickup and the returned flag. -/
def Pickup.Update (dt : ℚ) (pk : Pickup) : Pickup × Bool :=
  ({ pk with lifetime := pk.lifetime - dt }, decide (pk.lifetime - dt ≤ 0))

/-- `Pickup::GetType`. -/
def Pickup.GetType (pk : Pickup) : PickupType := pk.type
/-- `Pickup::GetPosition`. -/
def Pickup.GetPosition (pk : Pickup) : Vector2 := pk.position
/-- `Pickup::GetRadius`. -/
def Pickup.GetRadius (pk : Pickup) : ℚ := pk.radius

/-- The struct `DamagePopup`; `dmg` stands for the field `text`, which is "-" followed
by the decimal digits of `dmg`, and `alpha` for `color.a` (the other colour channels
are constant). -/
structure DamagePopup where
  position : Vector2
  dmg : Int
  time : ℚ
  maxTime : ℚ
  alpha : Int
deriving DecidableEq

/-- The constructor `DamagePopup(pos, dmg)`. -/
def DamagePopup.new (pos : Vector2) (dmg : Int) : DamagePopup :=
  { position := pos, dmg := dmg, time := 0, maxTime := 1, alpha := 255 }

/-- `DamagePopup::Update`: the updated popup and the returned flag; the cast to
`unsigned char` truncates toward zero and keeps the low 8 bits. -/
def DamagePopup.Update (dt : ℚ) (d : DamagePopup) : DamagePopup × Bool :=
  let time := d.time + dt
  let a : ℚ := 255 * (1 - time / d.maxTime)
  let trunc : Int := if 0 ≤ a then Rat.floor a else -Rat.floor (-a)
  ({ d with time := time, position := ⟨d.position.x, d.position.y - 30 * dt⟩
            alpha := trunc % 256 },
    decide (time ≥ d.maxTime))

/-! ## The simulation state and the frame loop of `Application::Run` -/

/-- What the platform fixes for a run: libm, `RAND_MAX` and the widths of the loaded
textures. -/
structure Platform where
  m : Libm
  randMax : Nat
  shipTexW : Int
  bossTexW : Int
  heartTexW : Int
  tripleTexW : Int

/-- `Application::C_WIDTH`. -/
def C_WIDTH : Int := 2500
/-- `Application::C_HEIGHT`. -/
def C_HEIGHT : Int := 1300
/-- `Application::MAX_AST`. -/
def MAX_AST : Nat := 150
/-- `Application::C_SPAWN_MIN`. -/
def C_SPAWN_MIN : ℚ := 1 / 2
/-- `Application::C_SPAWN_MAX`. -/
def C_SPAWN_MAX : ℚ := 3
/-- `Application::PICKUP_SPAWN_INTERVAL`. -/
def PICKUP_SPAWN_INTERVAL : ℚ := 15

/-- The renderer after `Init(C_WIDTH, C_HEIGHT, ...)`. -/
def appRenderer : Renderer := { screenW := C_WIDTH, screenH := C_HEIGHT }

/-- The fields of `Application` and the locals of `Run` that live across frames. -/
structure State where
  player : Ship
  spawnTimer : ℚ
  spawnInterval : ℚ
  currentWeapon : WeaponType
  shotTimer : ℚ
  bossProjectiles : List Projectile
  asteroids : List Asteroid
  projectiles : List Projectile
  damagePopups : List DamagePopup
  pickups : List Pickup
  pickupSpawnTimer : ℚ
  tripleShotActive : Bool
  tripleShotTimer : ℚ
  bossSpawned : Bool
  currentShape : AsteroidShape
  asteroidsDestroyed : Int
deriving DecidableEq

/-- What one frame reads from the input surface and the random sources: the frame
time, the keys, and the value of every random call the frame can make. -/
structure FrameInput where
  dt : ℚ
  keyW : Bool
  keyS : Bool
  keyA : Bool
  keyD : Bool
  keyR : Bool
  keyOne : Bool
  keyTwo : Bool
  keyThree : Bool
  keyFour : Bool
  keyFive : Bool
  keyTab : Bool
  keySpace : Bool
  pickupRandX : Nat
  pickupRandY : Nat
  pickupTypeDraw : Fin 2
  restartIntervalRand : Nat
  shapeDraw : Fin 4
  asteroidDraws : InitDraws
  spawnIntervalRand : Nat
  bossDraws : InitDraws

/-- The state at the start of `Run`; `intervalRand` is the value of the first
`rand()`. -/
def initialState (pf : Platform) (intervalRand : Nat) : State :=
  { player := PlayerShip pf.shipTexW C_WIDTH C_HEIGHT
    spawnTimer := 0
    spawnInterval := RandomFloat pf.randMax intervalRand C_SPAWN_MIN C_SPAWN_MAX
    currentWeapon := WeaponType.LASER
    shotTimer := 0
    bossProjectiles := []
    asteroids := []
    projectiles := []
    damagePopups := []
    pickups := []
    pickupSpawnTimer := 0
    tripleShotActive := false
    tripleShotTimer := 0
    bossSpawned := false
    currentShape := AsteroidShape.TRIANGLE
    asteroidsDestroyed := 0 }

/-- The timer updates at the top of the loop body. -/
def timersStep (dt : ℚ) (s : State) : State :=
  let s1 := { s with spawnTimer := s.spawnTimer + dt
                     pickupSpawnTimer := s.pickupSpawnTimer + dt }
  if s1.tripleShotActive then
    let t := s1.tripleShotTimer - dt
    { s1 with tripleShotTimer := t
              tripleShotActive := if t ≤ 0 then false else s1.tripleShotActive }
  else s1

/-- The pickup spawn. -/
def pickupSpawnStep (pf : Platform) (inp : FrameInput) (s : State) : State :=
  if s.pickupSpawnTimer ≥ PICKUP_SPAWN_INTERVAL then
    let pos : Vector2 :=
      ⟨RandomFloat pf.randMax inp.pickupRandX 100 ((C_WIDTH : ℚ) - 100),
       RandomFloat pf.randMax inp.pickupRandY 100 ((C_HEIGHT : ℚ) - 100)⟩
    let type := if inp.pickupTypeDraw = 0 then PickupType.HEALTH else PickupType.TRIPLESHOT
    { s with pickups := s.pickups ++ [Pickup.new pf.heartTexW pf.tripleTexW pos type]
             pickupSpawnTimer := 0 }
  else s

/-- `PlayerShip::Update`. -/
def PlayerShip.Update (inp : FrameInput) (p : Ship) : Ship :=
  if p.alive then
    let y1 := if inp.keyW then p.transform.position.y - p.speed * inp.dt
              else p.transform.position.y
    let y2 := if inp.keyS then y1 + p.speed * inp.dt else y1
    let x1 := if inp.keyA then p.transform.position.x - p.speed * inp.dt
              else p.transform.position.x
    let x2 := if inp.keyD then x1 + p.speed * inp.dt else x1
    { p with transform := { p.transform with position := ⟨x2, y2⟩ } }
  else
    { p with transform := { p.transform with
        position := ⟨p.transform.position.x, p.transform.position.y + p.speed * inp.dt⟩ } }

/-- The block `// Restart logic`. -/
def restartStep (pf : Platform) (inp : FrameInput) (s : State) : State :=
  if !s.player.IsAlive && inp.keyR then
    { s with player := PlayerShip pf.shipTexW C_WIDTH C_HEIGHT
             asteroids := []
             projectiles := []
             pickups := []
             spawnTimer := 0
             spawnInterval :=
               RandomFloat pf.randMax inp.restartIntervalRand C_SPAWN_MIN C_SPAWN_MAX
             asteroidsDestroyed := 0
             bossSpawned := false }
  else s

/-- The blocks `// Asteroid shape switch` and `// Weapon switch`. -/
def switchStep (inp : FrameInput) (s : State) : State :=
  let sh1 := if inp.keyOne then AsteroidShape.TRIANGLE else s.currentShape
  let sh2 := if inp.keyTwo then AsteroidShape.SQUARE else sh1
  let sh3 := if inp.keyThree then AsteroidShape.PENTAGON else sh2
  let sh4 := if inp.keyFour then AsteroidShape.OCTAGON else sh3
  let sh5 := if inp.keyFive then AsteroidShape.RANDOM else sh4
  let w :=
    if inp.keyTab then
      match s.currentWeapon with
      | WeaponType.LASER => WeaponType.BULLET
      | WeaponType.BULLET => WeaponType.ROCKET
      | WeaponType.ROCKET => WeaponType.LASER
      | WeaponType.COUNT => WeaponType.BULLET
    else s.currentWeapon
  { s with currentShape := sh5, currentWeapon := w }

/-- The block `// Shooting` on the state. -/
def shootingStep (pf : Platform) (fuel : Nat) (inp : FrameInput) (s : State) :
    Option State :=
  match shootingBlock pf.m fuel s.player s.currentWeapon s.tripleShotActive inp.dt
      inp.keySpace s.shotTimer s.projectiles with
  | none => none
  | some (t, ps, _) => some { s with shotTimer := t, projectiles := ps }

/-- The block `// Spawn asteroids`. -/
def asteroidSpawnStep (pf : Platform) (inp : FrameInput) (s : State) : State :=
  if s.spawnTimer ≥ s.spawnInterval ∧ s.asteroids.length < MAX_AST then
    { s with asteroids := s.asteroids ++
               [MakeAsteroid pf.m pf.randMax C_WIDTH C_HEIGHT s.currentShape inp.shapeDraw
                 inp.asteroidDraws]
             spawnTimer := 0
             spawnInterval :=
               RandomFloat pf.randMax inp.spawnIntervalRand C_SPAWN_MIN C_SPAWN_MAX }
  else s

/-- The boss spawn check
`if (asteroidsDestroyed > 0 && asteroidsDestroyed % 50 == 0 && !bossSpawned)`. -/
def bossSpawnCheck (pf : Platform) (inp : FrameInput) (s : State) : State :=
  if s.asteroidsDestroyed > 0 ∧ Int.tmod s.asteroidsDestroyed 50 = 0 ∧ s.bossSpawned = false then
    { s with asteroids := s.asteroids ++
               [BossAsteroid pf.m pf.randMax pf.bossTexW C_WIDTH C_HEIGHT inp.bossDraws]
             bossSpawned := true }
  else s

/-- `remove_if` with `Projectile::Update` followed by `erase`: every projectile is
moved, those that report expired are dropped. -/
def updateProjectiles (rd : Renderer) (dt : ℚ) (ps : List Projectile) : List Projectile :=
  (ps.map (Projectile.Update rd dt)).filterMap (fun r => if r.2 then none else some r.1)

/-- The two projectile update blocks, for `projectiles` and `bossProjectiles`. -/
def projectileUpdateStep (inp : FrameInput) (s : State) : State :=
  { s with projectiles := updateProjectiles appRenderer inp.dt s.projectiles
           bossProjectiles := updateProjectiles appRenderer inp.dt s.bossProjectiles }

/-- What the inner `for` over the asteroids leaves when the projectile hits: the
asteroid vector, the popup, and whether the asteroid was erased and was the Boss. -/
structure HitResult where
  asteroids : List Asteroid
  popup : DamagePopup
  destroyed : Bool
  wasBoss : Bool

/-- The hit test of the inner loop:
`Vector2Distance(pit->GetPosition(), ait->GetPosition()) < pit->GetRadius() + ait->GetRadius()`. -/
def projectileHits (p : Projectile) (a : Asteroid) : Bool :=
  distLt p.GetPosition a.GetPosition (p.GetRadius + a.GetRadius)

/-- The inner loop `for (ait = asteroids.begin(); ...)` for the projectile `p`:
`none` when the loop ends without a hit, otherwise the effect of the hit (the loop
leaves by `break`). -/
def hitScan (p : Projectile) : List Asteroid → Option HitResult
  | [] => none
  | a :: rest =>
    if projectileHits p a then
      let a1 := a.TakeDamage p.GetDamage
      let popup := DamagePopup.new a1.GetPosition p.GetDamage
      if a1.IsDestroyed then
        some { asteroids := rest, popup := popup, destroyed := true, wasBoss := a1.isBoss }
      else
        some { asteroids := a1 :: rest, popup := popup, destroyed := false, wasBoss := false }
    else
      match hitScan p rest with
      | none => none
      | some r => some { r with asteroids := a :: r.asteroids }

/-- The body of the outer loop `for (pit = projectiles.begin(); ...)` for the
projectile `p`; `s.projectiles` holds the projectiles already passed and kept. -/
def projectileStep (s : State) (p : Projectile) : State :=
  match hitScan p s.asteroids with
  | none => { s with projectiles := s.projectiles ++ [p] }
  | some r =>
    { s with asteroids := r.asteroids
             damagePopups := s.damagePopups ++ [r.popup]
             bossSpawned := if r.destroyed && r.wasBoss then false else s.bossSpawned
             asteroidsDestroyed :=
               if r.destroyed then s.asteroidsDestroyed + 1 else s.asteroidsDestroyed }

/-- The block `// Projectile-Asteroid collisions`. -/
def projectileAsteroidPass (s : State) : State :=
  s.projectiles.foldl projectileStep { s with projectiles := [] }

/-- The lambda `remove_collision` on one asteroid: the state with the player and
`bossProjectiles` it wrote, and the asteroid when it is kept. -/
def removeCollision (dt : ℚ) (s : State) (a : Asteroid) : State × Option Asteroid :=
  if s.player.IsAlive ∧
      distLt s.player.GetPosition a.GetPosition (s.player.GetRadius + a.GetRadius) then
    ({ s with player := s.player.TakeDamage a.GetDamage }, none)
  else
    let r := Asteroid.Update appRenderer dt a s.bossProjectiles
    ({ s with bossProjectiles := r.2.2 }, if r.2.1 then some r.1 else none)

/-- `remove_if(asteroids, remove_collision)` followed by `erase`. -/
def asteroidShipLoop (dt : ℚ) : List Asteroid → State → State
  | [], s => s
  | a :: rest, s =>
    match removeCollision dt s a with
    | (s1, none) => asteroidShipLoop dt rest s1
    | (s1, some a1) => asteroidShipLoop dt rest { s1 with asteroids := s1.asteroids ++ [a1] }

/-- The block `// Asteroid-Ship collisions`. -/
def asteroidShipPass (inp : FrameInput) (s : State) : State :=
  asteroidShipLoop inp.dt s.asteroids { s with asteroids := [] }

/-- `remove_if` with `DamagePopup::Update` followed by `erase`. -/
def updatePopups (dt : ℚ) (ds : List DamagePopup) : List DamagePopup :=
  (ds.map (DamagePopup.Update dt)).filterMap (fun r => if r.2 then none else some r.1)

/-- The block `// Update damage popups`. -/
def popupUpdateStep (inp : FrameInput) (s : State) : State :=
  { s with damagePopups := updatePopups inp.dt s.damagePopups }

/-- The range test of the pickup lambda:
`Vector2Distance(player->GetPosition(), pickup.GetPosition()) < pickup.GetRadius() + player->GetRadius()`. -/
def pickupInRange (player : Ship) (pk : Pickup) : Bool :=
  distLt player.GetPosition pk.GetPosition (pk.GetRadius + player.GetRadius)

/-- The pickup lambda on one pickup: the state with the player and the triple-shot
fields it wrote, and the pickup when it is kept. -/
def pickupCollect (dt : ℚ) (s : State) (pk : Pickup) : State × Option Pickup :=
  if pickupInRange s.player pk then
    if pk.GetType = PickupType.HEALTH then
      if s.player.GetHP < 100 then ({ s with player := s.player.TakeDamage (-25) }, none)
      else (s, none)
    else if pk.GetType = PickupType.TRIPLESHOT then
      ({ s with tripleShotActive := true, tripleShotTimer := 5 }, none)
    else (s, none)
  else
    (s, if (Pickup.Update dt pk).2 then none else some (Pickup.Update dt pk).1)

/-- The pickups the pass leaves: those out of the player's range whose lifetime has
not run out after this frame's `dt`. -/
def pickupStays (player : Ship) (dt : ℚ) (q : Pickup) : Bool :=
  !pickupInRange player q && !decide (q.lifetime - dt ≤ 0)

/-- `remove_if(pickups, ...)` followed by `erase`. -/
def pickupLoop (dt : ℚ) : List Pickup → State → State
  | [], s => s
  | pk :: rest, s =>
    match pickupCollect dt s pk with
    | (s1, none) => pickupLoop dt rest s1
    | (s1, some pk1) => pickupLoop dt rest { s1 with pickups := s1.pickups ++ [pk1] }

/-- The pickup-ship pass. -/
def pickupPass (inp : FrameInput) (s : State) : State :=
  pickupLoop inp.dt s.pickups { s with pickups := [] }

/-- The loop over `bossProjectiles` against the player. -/
def bossProjectileLoop : List Projectile → State → State
  | [], s => s
  | bp :: rest, s =>
    if s.player.IsAlive ∧
        distLt s.player.GetPosition bp.GetPosition (s.player.GetRadius + bp.GetRadius) then
      bossProjectileLoop rest { s with player := s.player.TakeDamage bp.GetDamage }
    else
      bossProjectileLoop rest { s with bossProjectiles := s.bossProjectiles ++ [bp] }

/-- The boss-projectile-ship pass. -/
def bossProjectilePass (s : State) : State :=
  bossProjectileLoop s.bossProjectiles { s with bossProjectiles := [] }

/-- The frame up to and including the block `// Shooting`. -/
def frameHead (pf : Platform) (fuel : Nat) (inp : FrameInput) (s : State) : Option State :=
  let s1 := timersStep inp.dt s
  let s2 := pickupSpawnStep pf inp s1
  let s3 := { s2 with player := PlayerShip.Update inp s2.player }
  let s4 := restartStep pf inp s3
  let s5 := switchStep inp s4
  shootingStep pf fuel inp s5

/-- The frame after the boss spawn check: the projectile updates and the collision
passes (rendering writes no state). -/
def frameAfterCheck (inp : FrameInput) (s : State) : State :=
  let s3 := projectileUpdateStep inp s
  let s4 := projectileAsteroidPass s3
  let s5 := asteroidShipPass inp s4
  let s6 := popupUpdateStep inp s5
  let s7 := pickupPass inp s6
  bossProjectilePass s7

/-- The frame from the block `// Spawn asteroids` on. -/
def frameTail (pf : Platform) (inp : FrameInput) (s : State) : State :=
  let s1 := asteroidSpawnStep pf inp s
  let s2 := bossSpawnCheck pf inp s1
  frameAfterCheck inp s2

/-- One pass of the body of `while (!WindowShouldClose())`; `none` when the iteration
budget of the shooting loop is used up. -/
def frame (pf : Platform) (fuel : Nat) (inp : FrameInput) (s : State) : Option State :=
  match frameHead pf fuel inp s with
  | none => none
  | some s1 => some (frameTail pf inp s1)

/-- The condition of the block `// Restart logic`,
`!player->IsAlive() && IsKeyPressed(KEY_R)`, read off the state at the start of the
frame (`PlayerShip::Update` does not write `alive`). -/
def restarts (inp : FrameInput) (s : State) : Bool := !s.player.IsAlive && inp.keyR

/-! ## The Boss invariant and the reachable states -/

/-- The number of `BossAsteroid` objects in an asteroid vector. -/
def bossCount (as : List Asteroid) : Nat := (as.filter Asteroid.isBoss).length

/-- The asteroid collection holds at most one Boss, and `bossSpawned` is true whenever
it holds one. -/
def bossInv (s : State) : Prop :=
  bossCount s.asteroids ≤ 1 ∧ (0 < bossCount s.asteroids → s.bossSpawned = true)

instance (s : State) : Decidable (bossInv s) := by unfold bossInv; infer_instance

/-- The states the loop of `Application::Run` can be in at the top of its body: the
state `Run` starts with, and the state any frame leaves from such a state. -/
inductive Reachable (pf : Platform) : State → Prop where
  | init (intervalRand : Nat) : Reachable pf (initialState pf intervalRand)
  | step (fuel : Nat) (inp : FrameInput) (s s1 : State) :
      Reachable pf s → frame pf fuel inp s = some s1 → Reachable pf s1

/-! ## Spawn geometry -/

/-- What the spawn geometry uses of libm: `sinf` and `cosf` stay within [-1, 1] and
`sqrtf` of a positive number is positive. -/
def Libm.wellBehaved (m : Libm) : Prop :=
  (∀ x, -1 ≤ m.sinf x ∧ m.sinf x ≤ 1) ∧ (∀ x, -1 ≤ m.cosf x ∧ m.cosf x ≤ 1) ∧
  (∀ y, 0 < y → 0 < m.sqrtf y)

/-- The raymath `Vector2DotProduct`. -/
def Vector2DotProduct (a b : Vector2) : ℚ := a.x * b.x + a.y * b.y

/-- The inward normal of the screen edge chosen by the `switch (GetRandomValue(0, 3))`
of `Asteroid::init`: 0 top, 1 right, 2 bottom, otherwise left. -/
def edgeInwardNormal (edge : Fin 4) : Vector2 :=
  match edge with
  | 0 => ⟨0, 1⟩
  | 1 => ⟨-1, 0⟩
  | 2 => ⟨0, -1⟩
  | _ => ⟨1, 0⟩

/-- The point `p` lies on the line of the given screen edge moved outward by `r`, with
its other coordinate inside the screen `[0, w]` resp. `[0, h]`. -/
def onSpawnEdge (edge : Fin 4) (w h : Int) (r : ℚ) (p : Vector2) : Prop :=
  match edge with
  | 0 => p.y = -r ∧ 0 ≤ p.x ∧ p.x ≤ (w : ℚ)
  | 1 => p.x = (w : ℚ) + r ∧ 0 ≤ p.y ∧ p.y ≤ (h : ℚ)
  | 2 => p.y = (h : ℚ) + r ∧ 0 ≤ p.x ∧ p.x ≤ (w : ℚ)
  | _ => p.x = -r ∧ 0 ≤ p.y ∧ p.y ≤ (h : ℚ)

/-! ## Triple-shot across frames -/

/-- The triple-shot fields of the state, `tripleShotActive` and `tripleShotTimer`. -/
def tripleOf (s : State) : Bool × ℚ := (s.tripleShotActive, s.tripleShotTimer)

/-- The state the block `// Shooting` of a frame runs on. -/
def frameBeforeShooting (pf : Platform) (inp : FrameInput) (s : State) : State :=
  let s1 := timersStep inp.dt s
  let s2 := pickupSpawnStep pf inp s1
  let s3 := { s2 with player := PlayerShip.Update inp s2.player }
  let s4 := restartStep pf inp s3
  switchStep inp s4

/-- The flag `tripleShotActive` the block `// Shooting` of a frame reads: the one the
timer update at the top of the frame leaves. -/
def fireControlTripleShot (inp : FrameInput) (s : State) : Bool :=
  (timersStep inp.dt s).tripleShotActive

/-- The state the pickup-ship pass of a frame runs on. -/
def frameBeforePickups (pf : Platform) (fuel : Nat) (inp : FrameInput) (s : State) :
    Option State :=
  match frameHead pf fuel inp s with
  | none => none
  | some s1 =>
    some (popupUpdateStep inp (asteroidShipPass inp (projectileAsteroidPass
      (projectileUpdateStep inp (bossSpawnCheck pf inp (asteroidSpawnStep pf inp s1))))))

/-- Whether a pickup is a TripleShot pickup within the player's range. -/
def tripleShotInRange (player : Ship) (pk : Pickup) : Bool :=
  pickupInRange player pk && decide (pk.GetType = PickupType.TRIPLESHOT)

/-- Whether the pickup-ship pass of the frame collects a TripleShot pickup. -/
def collectsTripleShot (pf : Platform) (fuel : Nat) (inp : FrameInput) (s : State) : Bool :=
  match frameBeforePickups pf fuel inp s with
  | none => false
  | some s6 => s6.pickups.any (tripleShotInRange s6.player)

/-- Successive frames. -/
def runFrames (pf : Platform) (fuel : Nat) : List FrameInput → State → Option State
  | [], s => some s
  | inp :: rest, s => (frame pf fuel inp s).bind (runFrames pf fuel rest)

/-- No frame of the run collects a TripleShot pickup. -/
def collectsNoTripleShot (pf : Platform) (fuel : Nat) : List FrameInput → State → Bool
  | [], _ => true
  | inp :: rest, s =>
    !collectsTripleShot pf fuel inp s &&
      (frame pf fuel inp s).elim true (collectsNoTripleShot pf fuel rest)

/-! ## Closed terms for the examples -/

/-- A coarse rational stand-in for libm, used to write closed example terms only:
the values of `sinf`, `cosf` and `sqrtf` at 0, taken everywhere. -/
def libm0 : Libm :=
  { sinf := fun _ => 0, cosf := fun _ => 1, sqrtf := fun _ => 0
    PI := 355 / 113, DEG2RAD := 355 / 113 / 180 }

/-- Draws used in the examples: every draw 0, a small asteroid from the top edge. -/
def draws0 : InitDraws :=
  { sizeDraw := 0, edgeDraw := 0, posRand := 0, angRand := 0, radRand := 0
    speedRand := 0, rotSpeedRand := 0, rotationRand := 0, rawType := 0 }

/-! ## Shared arithmetic lemmas -/

theorem wrapInt32_of_isInt32 {x : Int} (h : isInt32 x) : wrapInt32 x = x := by
  unfold isInt32 at h
  unfold wrapInt32
  omega

/-- Three frames of held fire for the examples: a new player, triple-shot inactive,
frame times 1/60, 1/10 and 1/8 (in total 29/120 s; at 20 shots/s that is 4 shots). -/
def fireFrames0 : List FireFrame :=
  [ { dt := 1 / 60, keySpace := true, player := PlayerShip 64 2500 1300
      tripleShotActive := false, projectiles := [] },
    { dt := 1 / 10, keySpace := true, player := PlayerShip 64 2500 1300
      tripleShotActive := false, projectiles := [] },
    { dt := 1 / 8, keySpace := true, player := PlayerShip 64 2500 1300
      tripleShotActive := false, projectiles := [] } ]

/-- A platform for the examples: `RAND_MAX` 32767, textures 512 wide (the Boss
texture 1024). -/
def platform0 : Platform :=
  { m := libm0, randMax := 32767, shipTexW := 512, bossTexW := 1024, heartTexW := 512
    tripleTexW := 512 }

/-- A frame of 1/100 s with no key down and every draw 0. -/
def input0 : FrameInput :=
  { dt := 1 / 100, keyW := false, keyS := false, keyA := false, keyD := false, keyR := false
    keyOne := false, keyTwo := false, keyThree := false, keyFour := false, keyFive := false
    keyTab := false, keySpace := false, pickupRandX := 0, pickupRandY := 0
    pickupTypeDraw := 0, restartIntervalRand := 0, shapeDraw := 0, asteroidDraws := draws0
    spawnIntervalRand := 0, bossDraws := draws0 }

/-- A small triangle asteroid at (400, 300) with 10 hp left. -/
def target0 : Asteroid :=
  { cls := AsteroidClass.Triangle, hp := 10, baseHp := 30
    asteroidType := AsteroidType.TRIANGLE.val
    transform := { position := ⟨400, 300⟩, rotation := 0 }
    physics := { velocity := ⟨0, 125⟩, rotationSpeed := 50 }
    size := 1, baseDamage := 5 }

/-- A state with 49 asteroids destroyed, no Boss, and a laser 10 px under `target0`. -/
def state49 : State :=
  { initialState platform0 0 with
    asteroidsDestroyed := 49
    asteroids := [target0]
    projectiles := [MakeProjectile libm0 WeaponType.LASER ⟨400, 310⟩ 800 0] }

/-- A state in which the player is dead while a Boss, one of its projectiles, a player
projectile, a pickup and a damage popup are live. -/
def stateDead : State :=
  { initialState platform0 0 with
    player := (PlayerShip 512 C_WIDTH C_HEIGHT).TakeDamage 200
    spawnTimer := 1 / 3
    currentWeapon := WeaponType.ROCKET
    currentShape := AsteroidShape.SQUARE
    asteroidsDestroyed := 50
    bossSpawned := true
    asteroids := [BossAsteroid libm0 32767 1024 C_WIDTH C_HEIGHT draws0]
    projectiles := [MakeProjectile libm0 WeaponType.ROCKET ⟨400, 310⟩ 1000 0]
    pickups := [Pickup.new 512 512 ⟨300, 300⟩ PickupType.HEALTH]
    bossProjectiles := [Projectile.new ⟨1270, 300⟩ ⟨0, 900⟩ 40 WeaponType.BULLET true]
    damagePopups := [DamagePopup.new ⟨400, 300⟩ 10] }

/-- A small triangle asteroid at (410, 300) with full hp 30. -/
def target1 : Asteroid :=
  { target0 with hp := 30, transform := { position := ⟨410, 300⟩, rotation := 0 } }

/-- A small triangle asteroid at (2000, 900) with full hp 30. -/
def target2 : Asteroid :=
  { target0 with hp := 30, transform := { position := ⟨2000, 900⟩, rotation := 0 } }

/-- A state for the projectile-asteroid pass: three asteroids, and three lasers of which
the first two are at (405, 300), within range of `target0` and of `target1`, and the
third is far from every asteroid. -/
def stateHits : State :=
  { initialState platform0 0 with
    asteroidsDestroyed := 7
    asteroids := [target0, target1, target2]
    projectiles :=
      [MakeProjectile libm0 WeaponType.LASER ⟨405, 300⟩ 800 0,
       MakeProjectile libm0 WeaponType.LASER ⟨405, 300⟩ 800 0,
       MakeProjectile libm0 WeaponType.LASER ⟨1000, 100⟩ 800 0] }

/-- A state for the pickup pass: the player, alive with hp 90 at the screen centre
(1250, 650) with radius 64, and three pickups: a Health pickup 30 px away, a pickup far
away about to run out, and a pickup far away with its full lifetime. -/
def statePickups : State :=
  { initialState platform0 0 with
    player := (PlayerShip 512 C_WIDTH C_HEIGHT).TakeDamage 10
    pickups :=
      [Pickup.new 512 512 ⟨1280, 650⟩ PickupType.HEALTH,
       { Pickup.new 512 512 ⟨300, 300⟩ PickupType.TRIPLESHOT with lifetime := 1 / 200 },
       Pickup.new 512 512 ⟨200, 1000⟩ PickupType.HEALTH] }

/-- The state one frame `input0` leaves from the initial state (the initial state itself
if the frame did not end). -/
def stateFrame1 : State :=
  (frame platform0 0 input0 (initialState platform0 0)).getD (initialState platform0 0)

/-- A rational stand-in for libm whose `sqrtf` is positive on positive numbers (the
bound `(y + 1) / 2` of the square root), with `sinf` and `cosf` as in `libm0`. -/
def libm1 : Libm :=
  { libm0 with sqrtf := fun y => if 0 < y then (y + 1) / 2 else 0 }

/-- A state with triple-shot inactive, 9 s after the last pickup spawn: a TripleShot
pickup with 1 s left lies 30 px from the player (alive, hp 100, at the screen centre). -/
def stateTriple : State :=
  { initialState platform0 0 with
    pickupSpawnTimer := 9
    pickups := [{ Pickup.new 512 512 ⟨1280, 650⟩ PickupType.TRIPLESHOT with lifetime := 1 }] }

/-- A frame of 1 s, no key down: on `stateTriple` it collects the pickup. -/
def inputCollect : FrameInput := { input0 with dt := 1 }

/-- A frame of 5 s in which the pickup spawn draws a TripleShot pickup next to the
screen centre. -/
def inputRespawn : FrameInput :=
  { input0 with dt := 5, pickupTypeDraw := 1, pickupRandX := 16383, pickupRandY := 16383 }

/-- A frame of 1/10 s with the fire key held. -/
def inputFire : FrameInput := { input0 with dt := 1 / 10, keySpace := true }

/-- A frame of 3 s, no key down. -/
def inputWait : FrameInput := { input0 with dt := 3 }

/-- The state the frame `inputCollect` leaves from `stateTriple` (that state itself if
the frame did not end): triple-shot just armed. -/
def stateArmed : State :=
  (frame platform0 2 inputCollect stateTriple).getD stateTriple

/-! ## Lemmas on the entity methods -/

theorem Projectile.Update_fst (rd : Renderer) (dt : ℚ) (p : Projectile) :
    (Projectile.Update rd dt p).1 =
      { p with transform := { p.transform with
          position := Vector2Add p.transform.position (Vector2Scale p.physics.velocity dt) } } := by
  unfold Projectile.Update
  dsimp only
  split_ifs <;> rfl

theorem Projectile.Update_snd (rd : Renderer) (dt : ℚ) (p : Projectile) :
    (Projectile.Update rd dt p).2 =
      decide ((Vector2Add p.transform.position (Vector2Scale p.physics.velocity dt)).x < 0 ∨
        (Vector2Add p.transform.position (Vector2Scale p.physics.velocity dt)).x
          > (rd.Width : ℚ) ∨
        (Vector2Add p.transform.position (Vector2Scale p.physics.velocity dt)).y < 0 ∨
        (Vector2Add p.transform.position (Vector2Scale p.physics.velocity dt)).y
          > (rd.Height : ℚ)) := by
  unfold Projectile.Update
  dsimp only
  split_ifs with h <;> simp [h]

/-! ## Lemmas on fire control -/

theorem shotEvent_length (m : Libm) (player : Ship) (w : WeaponType) (v : ℚ)
    (triple : Bool) (ps : List Projectile) :
    (shotEvent m player w v triple ps).length = ps.length + (if triple then 4 else 2) := by
  unfold shotEvent
  cases triple <;> simp

theorem shotLoop_spec (m : Libm) (player : Ship) (w : WeaponType) (v : ℚ) (triple : Bool)
    (i : ℚ) (hi : 0 < i) :
    ∀ (fuel : Nat) (t : ℚ) (ps : List Projectile), 0 ≤ t → ⌊t / i⌋.toNat ≤ fuel →
      ∃ (t1 : ℚ) (ps1 : List Projectile) (n : Nat),
        shotLoop m player w v triple i fuel t ps = some (t1, ps1, n) ∧
        t = t1 + n * i ∧ 0 ≤ t1 ∧ t1 < i ∧
        ps1.length = ps.length + n * (if triple then 4 else 2) := by
  intro fuel
  induction fuel with
  | zero =>
    intro t ps ht hf
    have hfl : ⌊t / i⌋ ≤ 0 := by
      have := Int.toNat_eq_zero.mp (Nat.le_zero.mp hf)
      exact this
    have hlt : t < i := by
      have h1 : t / i < 1 := by
        have := Int.lt_floor_add_one (t / i)
        have h2 : ((⌊t / i⌋ : Int) : ℚ) ≤ 0 := by exact_mod_cast hfl
        linarith
      exact (div_lt_one hi).mp h1
    refine ⟨t, ps, 0, ?_, by simp, ht, hlt, by simp⟩
    simp [shotLoop, not_le.mpr hlt]
  | succ fuel ih =>
    intro t ps ht hf
    by_cases hge : t ≥ i
    · have ht1 : 0 ≤ t - i := by linarith
      have hfloor : ⌊(t - i) / i⌋ = ⌊t / i⌋ - 1 := by
        have : (t - i) / i = t / i - 1 := by field_simp
        rw [this]
        exact Int.floor_sub_one _
      have hf1 : ⌊(t - i) / i⌋.toNat ≤ fuel := by
        rw [hfloor]
        omega
      obtain ⟨t1, ps1, n, heq, hsum, h0, hlt, hlen⟩ :=
        ih (t - i) (shotEvent m player w v triple ps) ht1 hf1
      refine ⟨t1, ps1, n + 1, ?_, ?_, h0, hlt, ?_⟩
      · simp [shotLoop, hge, heq]
      · push_cast
        linarith
      · rw [hlen, shotEvent_length]
        ring
    · have hlt : t < i := not_le.mp hge
      refine ⟨t, ps, 0, ?_, by simp, ht, hlt, by simp⟩
      simp [shotLoop, hge]

theorem floor_toNat_mono {a b : ℚ} (hab : a ≤ b) : ⌊a⌋.toNat ≤ ⌊b⌋.toNat :=
  Int.toNat_le_toNat (Int.floor_mono hab)

theorem fireRun_spec (m : Libm) (w : WeaponType) (r : ℚ) (hr : 0 < r) (fuel : Nat) :
    ∀ (frames : List FireFrame) (t0 : ℚ), 0 ≤ t0 → t0 < 1 / r →
      (∀ f ∈ frames, 0 ≤ f.dt) →
      (∀ f ∈ frames, f.player.IsAlive = true) →
      (∀ f ∈ frames, f.keySpace = true) →
      (∀ f ∈ frames, f.player.GetFireRate w = r) →
      ⌊(t0 + (frames.map FireFrame.dt).sum) / (1 / r)⌋.toNat ≤ fuel →
      ∃ (t1 : ℚ) (n k : Nat), fireRun m w fuel frames t0 = some (t1, n, k) ∧
        t0 + (frames.map FireFrame.dt).sum = t1 + n * (1 / r) ∧ 0 ≤ t1 ∧ t1 < 1 / r ∧
        2 * n ≤ k ∧ k ≤ 4 * n ∧
        ((∀ f ∈ frames, f.tripleShotActive = false) → k = 2 * n) ∧
        ((∀ f ∈ frames, f.tripleShotActive = true) → k = 4 * n) := by
  have hi : 0 < 1 / r := by positivity
  intro frames
  induction frames with
  | nil =>
    intro t0 ht0 hlt _ _ _ _ _
    exact ⟨t0, 0, 0, rfl, by simp, ht0, hlt, by simp, by simp, by simp, by simp⟩
  | cons f fs ih =>
    intro t0 ht0 _ hdt halive hheld hrate hfuel
    have hdtf : 0 ≤ f.dt := hdt f (List.mem_cons_self _ _)
    have hsum : 0 ≤ (fs.map FireFrame.dt).sum := by
      apply List.sum_nonneg
      intro x hx
      obtain ⟨g, hg, rfl⟩ := List.mem_map.mp hx
      exact hdt g (List.mem_cons_of_mem _ hg)
    simp only [List.map_cons, List.sum_cons] at hfuel ⊢
    have hfuel1 : ⌊(t0 + f.dt) / (1 / r)⌋.toNat ≤ fuel := by
      refine le_trans (floor_toNat_mono ?_) hfuel
      apply div_le_div_of_nonneg_right _ hi.le
      linarith
    obtain ⟨t1, ps1, n1, heq1, hs1, h01, hlt1, hlen1⟩ :=
      shotLoop_spec m f.player w (f.player.GetSpacing w * r) f.tripleShotActive (1 / r) hi
        fuel (t0 + f.dt) f.projectiles (by linarith) hfuel1
    have hn1 : (0 : ℚ) ≤ (n1 : ℚ) * (1 / r) := by positivity
    have hfuel2 : ⌊(t1 + (fs.map FireFrame.dt).sum) / (1 / r)⌋.toNat ≤ fuel := by
      refine le_trans (floor_toNat_mono ?_) hfuel
      apply div_le_div_of_nonneg_right _ hi.le
      linarith
    obtain ⟨t2, n, k, heq2, hs2, h02, hlt2, hk2, hk4, hfalse, htrue⟩ :=
      ih t1 h01 hlt1 (fun g hg => hdt g (List.mem_cons_of_mem _ hg))
        (fun g hg => halive g (List.mem_cons_of_mem _ hg))
        (fun g hg => hheld g (List.mem_cons_of_mem _ hg))
        (fun g hg => hrate g (List.mem_cons_of_mem _ hg)) hfuel2
    have hblock : shootingBlock m fuel f.player w f.tripleShotActive f.dt f.keySpace t0
        f.projectiles = some (t1, ps1, n1) := by
      simp only [shootingBlock, halive f (List.mem_cons_self _ _),
        hheld f (List.mem_cons_self _ _), hrate f (List.mem_cons_self _ _), Bool.and_self,
        if_true]
      exact heq1
    have hk : ps1.length - f.projectiles.length
        = n1 * (if f.tripleShotActive then 4 else 2) := by
      rw [hlen1]; simp
    refine ⟨t2, n1 + n, ps1.length - f.projectiles.length + k, ?_, ?_, h02, hlt2, ?_, ?_,
      ?_, ?_⟩
    · simp only [fireRun, hblock, heq2]
    · push_cast
      linarith
    · rw [hk]; split_ifs <;> omega
    · rw [hk]; split_ifs <;> omega
    · intro hall
      have hf := hall f (List.mem_cons_self _ _)
      have := hfalse (fun g hg => hall g (List.mem_cons_of_mem _ hg))
      rw [hk, hf]; simp; omega
    · intro hall
      have hf := hall f (List.mem_cons_self _ _)
      have := htrue (fun g hg => hall g (List.mem_cons_of_mem _ hg))
      rw [hk, hf]; simp; omega

/-! ## Lemmas on the projectile-asteroid pass -/

theorem hitScan_none (p : Projectile) :
    ∀ as : List Asteroid, hitScan p as = none → ∀ a ∈ as, projectileHits p a = false := by
  intro as
  induction as with
  | nil => intro _ a ha; simp at ha
  | cons a rest ih =>
    intro h b hb
    by_cases hh : projectileHits p a = true
    · simp only [hitScan, hh, if_true] at h
      split at h <;> simp at h
    · have hh' : projectileHits p a = false := by simpa using hh
      simp only [hitScan, hh', Bool.false_eq_true, if_false] at h
      rcases List.mem_cons.mp hb with rfl | hb
      · exact hh'
      · cases hrest : hitScan p rest with
        | none => exact ih hrest b hb
        | some r => simp [hrest] at h

theorem hitScan_some (p : Projectile) :
    ∀ (as : List Asteroid) (r : HitResult), hitScan p as = some r →
      ∃ (pre : List Asteroid) (a : Asteroid) (post : List Asteroid),
        as = pre ++ a :: post ∧ (∀ b ∈ pre, projectileHits p b = false) ∧
        projectileHits p a = true ∧
        r.popup = DamagePopup.new a.GetPosition p.GetDamage ∧
        r.destroyed = (a.TakeDamage p.GetDamage).IsDestroyed ∧
        r.wasBoss = (r.destroyed && a.isBoss) ∧
        r.asteroids =
          pre ++ (if r.destroyed then [] else [a.TakeDamage p.GetDamage]) ++ post := by
  intro as
  induction as with
  | nil => intro r h; simp [hitScan] at h
  | cons a rest ih =>
    intro r h
    by_cases hh : projectileHits p a = true
    · simp only [hitScan, hh, if_true] at h
      by_cases hd : (a.TakeDamage p.GetDamage).IsDestroyed = true
      · simp only [hd, if_true, Option.some.injEq] at h
        subst h
        exact ⟨[], a, rest, rfl, by simp, hh, rfl, hd.symm, by
          simp [Asteroid.isBoss, Asteroid.TakeDamage], by simp⟩
      · have hd' : (a.TakeDamage p.GetDamage).IsDestroyed = false := by simpa using hd
        simp only [hd', Bool.false_eq_true, if_false, Option.some.injEq] at h
        subst h
        exact ⟨[], a, rest, rfl, by simp, hh, rfl, hd'.symm, by simp, by simp⟩
    · have hh' : projectileHits p a = false := by simpa using hh
      simp only [hitScan, hh', Bool.false_eq_true, if_false] at h
      cases hrest : hitScan p rest with
      | none => simp [hrest] at h
      | some r0 =>
        simp only [hrest, Option.some.injEq] at h
        obtain ⟨pre, a0, post, hsplit, hpre, hhit, hpop, hdes, hboss, hast⟩ := ih r0 hrest
        subst h
        refine ⟨a :: pre, a0, post, by simp [hsplit], ?_, hhit, hpop, hdes, hboss, ?_⟩
        · intro b hb
          rcases List.mem_cons.mp hb with rfl | hb
          · exact hh'
          · exact hpre b hb
        · simp [hast]

theorem projectileStep_miss (s : State) (p : Projectile)
    (h : hitScan p s.asteroids = none) :
    projectileStep s p = { s with projectiles := s.projectiles ++ [p] } := by
  simp [projectileStep, h]

theorem projectileStep_hit (s : State) (p : Projectile) (r : HitResult)
    (h : hitScan p s.asteroids = some r) :
    projectileStep s p =
      { s with asteroids := r.asteroids
               damagePopups := s.damagePopups ++ [r.popup]
               bossSpawned := if r.destroyed && r.wasBoss then false else s.bossSpawned
               asteroidsDestroyed :=
                 if r.destroyed then s.asteroidsDestroyed + 1 else s.asteroidsDestroyed } := by
  simp [projectileStep, h]

theorem projectileStep_counts (s : State) (p : Projectile) :
    (projectileStep s p).asteroidsDestroyed + (projectileStep s p).asteroids.length
      = s.asteroidsDestroyed + s.asteroids.length ∧
    (projectileStep s p).damagePopups.length + (projectileStep s p).projectiles.length
      = s.damagePopups.length + s.projectiles.length + 1 ∧
    ((projectileStep s p).projectiles = s.projectiles ∨
      (projectileStep s p).projectiles = s.projectiles ++ [p]) := by
  cases h : hitScan p s.asteroids with
  | none =>
    rw [projectileStep_miss s p h]
    simp
    omega
  | some r =>
    rw [projectileStep_hit s p r h]
    obtain ⟨pre, a, post, hsplit, _, _, _, _, _, hast⟩ := hitScan_some p s.asteroids r h
    refine ⟨?_, by simp; omega, Or.inl rfl⟩
    simp only [hast, hsplit]
    cases r.destroyed
    · simp
    · simp; omega

theorem projectileFold_counts (ps : List Projectile) :
    ∀ s : State,
      (ps.foldl projectileStep s).asteroidsDestroyed + (ps.foldl projectileStep s).asteroids.length
        = s.asteroidsDestroyed + s.asteroids.length ∧
      (ps.foldl projectileStep s).damagePopups.length
          + (ps.foldl projectileStep s).projectiles.length
        = s.damagePopups.length + s.projectiles.length + ps.length ∧
      ∃ kept : List Projectile,
        (ps.foldl projectileStep s).projectiles = s.projectiles ++ kept ∧ kept.Sublist ps := by
  induction ps with
  | nil => intro s; exact ⟨rfl, rfl, [], by simp, List.Sublist.refl _⟩
  | cons p rest ih =>
    intro s
    obtain ⟨h1, h2, kept, hk, hsub⟩ := ih (projectileStep s p)
    obtain ⟨g1, g2, g3⟩ := projectileStep_counts s p
    simp only [List.foldl_cons, List.length_cons]
    refine ⟨by omega, by omega, ?_⟩
    rcases g3 with g3 | g3
    · exact ⟨kept, by rw [hk, g3], List.Sublist.cons _ hsub⟩
    · exact ⟨p :: kept, by rw [hk, g3]; simp, List.Sublist.cons₂ _ hsub⟩

/-! ## Lemmas on the pickup-ship pass -/

theorem Ship.TakeDamage_geometry (p : Ship) (d : Int) :
    (p.TakeDamage d).GetPosition = p.GetPosition ∧ (p.TakeDamage d).GetRadius = p.GetRadius := by
  unfold Ship.TakeDamage
  cases p.alive <;> simp [Ship.GetPosition, Ship.GetRadius]

theorem pickupCollect_inRange (dt : ℚ) (s : State) (pk q : Pickup) :
    pickupInRange (pickupCollect dt s pk).1.player q = pickupInRange s.player q := by
  have hg := Ship.TakeDamage_geometry s.player (-25)
  unfold pickupCollect
  split_ifs <;> simp [pickupInRange, hg.1, hg.2]

theorem pickupCollect_pickups (dt : ℚ) (s : State) (pk : Pickup) :
    (pickupCollect dt s pk).1.pickups = s.pickups := by
  unfold pickupCollect
  split_ifs <;> rfl

theorem pickupCollect_kept (dt : ℚ) (s : State) (pk : Pickup) :
    (pickupCollect dt s pk).2 =
      if pickupInRange s.player pk = false ∧ ¬ pk.lifetime - dt ≤ 0 then
        some (Pickup.Update dt pk).1
      else none := by
  unfold pickupCollect
  by_cases hr : pickupInRange s.player pk = true
  · simp only [hr, if_true]
    split_ifs <;> simp_all
  · have hr' : pickupInRange s.player pk = false := by simpa using hr
    simp only [hr', Bool.false_eq_true, if_false, Pickup.Update]
    by_cases he : pk.lifetime - dt ≤ 0 <;> simp [he]

theorem pickupLoop_pickups (dt : ℚ) (player : Ship) :
    ∀ (pks : List Pickup) (s : State),
      (∀ q, pickupInRange s.player q = pickupInRange player q) →
      (pickupLoop dt pks s).pickups =
        s.pickups ++
          (pks.filter (pickupStays player dt)).map (fun q => (Pickup.Update dt q).1) := by
  intro pks
  induction pks with
  | nil => intro s _; simp [pickupLoop]
  | cons pk rest ih =>
    intro s hs
    have hk := pickupCollect_kept dt s pk
    have hp := pickupCollect_pickups dt s pk
    have hr : ∀ q, pickupInRange (pickupCollect dt s pk).1.player q = pickupInRange player q :=
      fun q => by rw [pickupCollect_inRange, hs q]
    rcases hres : pickupCollect dt s pk with ⟨s1, o⟩
    rw [hres] at hk hp hr
    simp only at hk hp hr
    by_cases hc : pickupInRange s.player pk = false ∧ ¬ pk.lifetime - dt ≤ 0
    · rw [if_pos hc] at hk
      subst hk
      have h1 : pickupStays player dt pk = true := by
        unfold pickupStays
        rw [← hs pk]; simp [hc.1, hc.2]
      simp only [pickupLoop, hres]
      rw [ih { s1 with pickups := s1.pickups ++ [(Pickup.Update dt pk).1] } hr,
        List.filter_cons_of_pos h1, hp]
      simp
    · rw [if_neg hc] at hk
      subst hk
      have h1 : ¬ pickupStays player dt pk = true := by
        unfold pickupStays
        rw [← hs pk]
        intro hcontra
        simp only [Bool.and_eq_true, Bool.not_eq_true', decide_eq_false_iff_not] at hcontra
        exact hc hcontra
      simp only [pickupLoop, hres]
      rw [ih s1 hr, List.filter_cons_of_neg h1, hp]

/-! ## Lemmas on the frame: who writes the destroyed counter and `bossSpawned` -/

theorem timersStep_keeps (dt : ℚ) (s : State) :
    (timersStep dt s).player = s.player ∧
    (timersStep dt s).asteroidsDestroyed = s.asteroidsDestroyed ∧
    (timersStep dt s).bossSpawned = s.bossSpawned := by
  unfold timersStep
  dsimp only
  split_ifs <;> exact ⟨rfl, rfl, rfl⟩

theorem pickupSpawnStep_keeps (pf : Platform) (inp : FrameInput) (s : State) :
    (pickupSpawnStep pf inp s).player = s.player ∧
    (pickupSpawnStep pf inp s).asteroidsDestroyed = s.asteroidsDestroyed ∧
    (pickupSpawnStep pf inp s).bossSpawned = s.bossSpawned := by
  unfold pickupSpawnStep
  dsimp only
  split_ifs <;> exact ⟨rfl, rfl, rfl⟩

theorem PlayerShip.Update_alive (inp : FrameInput) (p : Ship) :
    (PlayerShip.Update inp p).alive = p.alive := by
  unfold PlayerShip.Update
  dsimp only
  split_ifs <;> rfl

theorem restartStep_counter_flag (pf : Platform) (inp : FrameInput) (s : State) :
    (restartStep pf inp s).asteroidsDestroyed
      = (if restarts inp s then 0 else s.asteroidsDestroyed) ∧
    (restartStep pf inp s).bossSpawned = (if restarts inp s then false else s.bossSpawned) := by
  unfold restartStep restarts
  cases hr : (!s.player.IsAlive && inp.keyR) <;> simp

theorem frameHead_counter_flag (pf : Platform) (fuel : Nat) (inp : FrameInput) (s s1 : State)
    (h : frameHead pf fuel inp s = some s1) :
    s1.asteroidsDestroyed = (if restarts inp s then 0 else s.asteroidsDestroyed) ∧
    s1.bossSpawned = (if restarts inp s then false else s.bossSpawned) := by
  obtain ⟨t1, t2, t3⟩ := timersStep_keeps inp.dt s
  obtain ⟨p1, p2, p3⟩ := pickupSpawnStep_keeps pf inp (timersStep inp.dt s)
  have hrest := restartStep_counter_flag pf inp
    { pickupSpawnStep pf inp (timersStep inp.dt s) with
      player := PlayerShip.Update inp (pickupSpawnStep pf inp (timersStep inp.dt s)).player }
  have hr : restarts inp
      { pickupSpawnStep pf inp (timersStep inp.dt s) with
        player := PlayerShip.Update inp (pickupSpawnStep pf inp (timersStep inp.dt s)).player }
      = restarts inp s := by
    simp only [restarts, Ship.IsAlive, PlayerShip.Update_alive, p1, t1]
  unfold frameHead shootingStep at h
  dsimp only at h
  split at h
  · exact absurd h (by simp)
  · simp only [Option.some.injEq] at h
    subst h
    refine ⟨hrest.1.trans ?_, hrest.2.trans ?_⟩
    · rw [hr]; dsimp only; rw [p2, t2]
    · rw [hr]; dsimp only; rw [p3, t3]

theorem asteroidSpawnStep_counter_flag (pf : Platform) (inp : FrameInput) (s : State) :
    (asteroidSpawnStep pf inp s).asteroidsDestroyed = s.asteroidsDestroyed ∧
    (asteroidSpawnStep pf inp s).bossSpawned = s.bossSpawned := by
  unfold asteroidSpawnStep
  split_ifs <;> exact ⟨rfl, rfl⟩

theorem asteroidShipLoop_counter_flag (dt : ℚ) :
    ∀ (as : List Asteroid) (s : State),
      (asteroidShipLoop dt as s).asteroidsDestroyed = s.asteroidsDestroyed ∧
      (asteroidShipLoop dt as s).bossSpawned = s.bossSpawned := by
  intro as
  induction as with
  | nil => intro s; exact ⟨rfl, rfl⟩
  | cons a rest ih =>
    intro s
    have hstep : (removeCollision dt s a).1.asteroidsDestroyed = s.asteroidsDestroyed ∧
        (removeCollision dt s a).1.bossSpawned = s.bossSpawned := by
      unfold removeCollision
      split_ifs <;> exact ⟨rfl, rfl⟩
    rcases hres : removeCollision dt s a with ⟨s1, o⟩
    rw [hres] at hstep
    cases o with
    | none =>
      simp only [asteroidShipLoop, hres]
      rw [(ih s1).1, (ih s1).2]
      exact hstep
    | some a1 =>
      simp only [asteroidShipLoop, hres]
      rw [(ih _).1, (ih _).2]
      exact hstep

theorem pickupLoop_counter_flag (dt : ℚ) :
    ∀ (pks : List Pickup) (s : State),
      (pickupLoop dt pks s).asteroidsDestroyed = s.asteroidsDestroyed ∧
      (pickupLoop dt pks s).bossSpawned = s.bossSpawned := by
  intro pks
  induction pks with
  | nil => intro s; exact ⟨rfl, rfl⟩
  | cons pk rest ih =>
    intro s
    have hstep : (pickupCollect dt s pk).1.asteroidsDestroyed = s.asteroidsDestroyed ∧
        (pickupCollect dt s pk).1.bossSpawned = s.bossSpawned := by
      unfold pickupCollect
      split_ifs <;> exact ⟨rfl, rfl⟩
    rcases hres : pickupCollect dt s pk with ⟨s1, o⟩
    rw [hres] at hstep
    cases o with
    | none =>
      simp only [pickupLoop, hres]
      rw [(ih s1).1, (ih s1).2]
      exact hstep
    | some pk1 =>
      simp only [pickupLoop, hres]
      rw [(ih _).1, (ih _).2]
      exact hstep

theorem bossProjectileLoop_counter_flag :
    ∀ (bps : List Projectile) (s : State),
      (bossProjectileLoop bps s).asteroidsDestroyed = s.asteroidsDestroyed ∧
      (bossProjectileLoop bps s).bossSpawned = s.bossSpawned := by
  intro bps
  induction bps with
  | nil => intro s; exact ⟨rfl, rfl⟩
  | cons bp rest ih =>
    intro s
    unfold bossProjectileLoop
    split_ifs
    · rw [(ih _).1, (ih _).2]; exact ⟨rfl, rfl⟩
    · rw [(ih _).1, (ih _).2]; exact ⟨rfl, rfl⟩

theorem afterProjectilePass_counter_flag (inp : FrameInput) (s : State) :
    (bossProjectilePass (pickupPass inp (popupUpdateStep inp
      (asteroidShipPass inp s)))).asteroidsDestroyed = s.asteroidsDestroyed ∧
    (bossProjectilePass (pickupPass inp (popupUpdateStep inp
      (asteroidShipPass inp s)))).bossSpawned = s.bossSpawned := by
  unfold bossProjectilePass pickupPass popupUpdateStep asteroidShipPass
  constructor
  · rw [(bossProjectileLoop_counter_flag _ _).1]
    simp only
    rw [(pickupLoop_counter_flag _ _ _).1]
    simp only
    rw [(asteroidShipLoop_counter_flag _ _ _).1]
  · rw [(bossProjectileLoop_counter_flag _ _).2]
    simp only
    rw [(pickupLoop_counter_flag _ _ _).2]
    simp only
    rw [(asteroidShipLoop_counter_flag _ _ _).2]

theorem projectileStep_flag (s : State) (p : Projectile)
    (h : (projectileStep s p).bossSpawned ≠ s.bossSpawned) :
    (projectileStep s p).bossSpawned = false ∧
    (projectileStep s p).asteroidsDestroyed = s.asteroidsDestroyed + 1 ∧
    ∃ a ∈ s.asteroids, a.isBoss = true ∧ projectileHits p a = true ∧
      (a.TakeDamage p.GetDamage).GetHP ≤ 0 := by
  cases hs : hitScan p s.asteroids with
  | none =>
    rw [projectileStep_miss s p hs] at h
    exact absurd rfl h
  | some r =>
    rw [projectileStep_hit s p r hs] at h ⊢
    obtain ⟨pre, a, post, hsplit, _, hhit, _, hdes, hboss, _⟩ := hitScan_some p s.asteroids r hs
    simp only at h ⊢
    by_cases hc : (r.destroyed && r.wasBoss) = true
    · have hd : r.destroyed = true := by
        cases hrd : r.destroyed <;> simp [hrd] at hc ⊢
      have hw : r.wasBoss = true := by
        cases hrw : r.wasBoss <;> simp [hrw] at hc ⊢
      have hab : a.isBoss = true := by
        rw [hboss, hd] at hw; simpa using hw
      have hle : (a.TakeDamage p.GetDamage).GetHP ≤ 0 := by
        rw [hdes] at hd; simpa [Asteroid.IsDestroyed, Asteroid.GetHP] using hd
      refine ⟨by simp [hc], by simp [hd], a, ?_, hab, hhit, hle⟩
      rw [hsplit]; simp
    · simp only [hc] at h
      exact absurd rfl h

/-! ## Lemmas on the ship's alive flag -/

/-- One `TakeDamage` on a ship whose flag agrees with `hp > 0` leaves them agreeing. -/
theorem Ship.TakeDamage_alive_iff (s : Ship) (d : Int)
    (h : s.IsAlive = true ↔ s.GetHP > 0) :
    (s.TakeDamage d).IsAlive = true ↔ (s.TakeDamage d).GetHP > 0 := by
  unfold Ship.TakeDamage
  cases ha : s.alive
  · simpa [Ship.IsAlive, Ship.GetHP, ha] using h
  · simp only [Bool.not_true, Bool.false_eq_true, if_false, Ship.IsAlive, Ship.GetHP]
    split_ifs with h1 h2 h3 <;> simp <;> omega

/-! ## Lemmas on the Boss invariant -/

theorem bossCount_append (xs ys : List Asteroid) :
    bossCount (xs ++ ys) = bossCount xs + bossCount ys := by
  simp [bossCount]

theorem bossCount_cons (a : Asteroid) (xs : List Asteroid) :
    bossCount (a :: xs) = (if a.isBoss then 1 else 0) + bossCount xs := by
  unfold bossCount
  cases h : a.isBoss
  · simp [List.filter_cons, h]
  · simp [List.filter_cons, h]
    omega

theorem Asteroid.TakeDamage_isBoss (a : Asteroid) (d : Int) :
    (a.TakeDamage d).isBoss = a.isBoss := rfl

theorem MakeAsteroid_isBoss (m : Libm) (randMax : Nat) (w h : Int) (shape : AsteroidShape)
    (shapeDraw : Fin 4) (d : InitDraws) :
    (MakeAsteroid m randMax w h shape shapeDraw d).isBoss = false := by
  unfold MakeAsteroid
  cases shape
  · rfl
  · rfl
  · rfl
  · rfl
  · fin_cases shapeDraw <;> rfl

theorem Asteroid.Update_isBoss (rd : Renderer) (dt : ℚ) (a : Asteroid)
    (bps : List Projectile) : (Asteroid.Update rd dt a bps).1.isBoss = a.isBoss := by
  unfold Asteroid.Update
  cases hc : a.cls with
  | Boss b => simp [BossAsteroid.Update, Asteroid.isBoss, hc]
  | Triangle =>
    simp only [Asteroid.baseUpdate]
    split_ifs <;> simp [Asteroid.isBoss, hc]
  | Square =>
    simp only [Asteroid.baseUpdate]
    split_ifs <;> simp [Asteroid.isBoss, hc]
  | Pentagon =>
    simp only [Asteroid.baseUpdate]
    split_ifs <;> simp [Asteroid.isBoss, hc]
  | Octagon =>
    simp only [Asteroid.baseUpdate]
    split_ifs <;> simp [Asteroid.isBoss, hc]

theorem bossInv_restartStep (pf : Platform) (inp : FrameInput) (s : State)
    (h : bossInv s) : bossInv (restartStep pf inp s) := by
  unfold restartStep
  split_ifs
  · exact ⟨by simp [bossCount], by simp [bossCount]⟩
  · exact h

theorem bossInv_asteroidSpawnStep (pf : Platform) (inp : FrameInput) (s : State)
    (h : bossInv s) : bossInv (asteroidSpawnStep pf inp s) := by
  unfold asteroidSpawnStep
  split_ifs
  · unfold bossInv at h ⊢
    simp only [bossCount_append, bossCount_cons, MakeAsteroid_isBoss, Bool.false_eq_true,
      if_false]
    simpa [bossCount] using h
  · exact h

theorem bossInv_bossSpawnCheck (pf : Platform) (inp : FrameInput) (s : State)
    (h : bossInv s) : bossInv (bossSpawnCheck pf inp s) := by
  unfold bossSpawnCheck
  split_ifs with hc
  · obtain ⟨_, _, hflag⟩ := hc
    have h0 : bossCount s.asteroids = 0 := by
      by_contra hne
      have := h.2 (Nat.pos_of_ne_zero hne)
      rw [hflag] at this
      exact absurd this (by simp)
    have hb : (BossAsteroid pf.m pf.randMax pf.bossTexW C_WIDTH C_HEIGHT inp.bossDraws).isBoss
        = true := rfl
    refine ⟨?_, fun _ => rfl⟩
    show bossCount (s.asteroids ++
      [BossAsteroid pf.m pf.randMax pf.bossTexW C_WIDTH C_HEIGHT inp.bossDraws]) ≤ 1
    rw [bossCount_append, bossCount_cons, hb, h0]
    simp [bossCount]
  · exact h

theorem bossInv_projectileStep (s : State) (p : Projectile) (h : bossInv s) :
    bossInv (projectileStep s p) := by
  cases hs : hitScan p s.asteroids with
  | none =>
    rw [projectileStep_miss s p hs]
    exact h
  | some r =>
    rw [projectileStep_hit s p r hs]
    obtain ⟨pre, a, post, hsplit, _, _, _, _, hboss, hast⟩ := hitScan_some p s.asteroids r hs
    unfold bossInv at h ⊢
    rw [hsplit, bossCount_append, bossCount_cons] at h
    simp only [hast, bossCount_append]
    cases hd : r.destroyed
    · simp only [Bool.false_eq_true, if_false, Bool.false_and, bossCount_cons,
        Asteroid.TakeDamage_isBoss]
      have : bossCount ([] : List Asteroid) = 0 := rfl
      rw [this]
      constructor
      · omega
      · intro hpos
        exact h.2 (by omega)
    · have hnil : bossCount ([] : List Asteroid) = 0 := rfl
      simp only [if_true, hnil, Bool.true_and, hboss, hd]
      cases hab : a.isBoss
      · simp only [hab, Bool.false_eq_true, if_false] at h ⊢
        constructor
        · omega
        · intro hpos
          exact h.2 (by omega)
      · simp only [hab, if_true] at h ⊢
        constructor
        · omega
        · intro hpos
          omega

theorem bossInv_projectileFold (ps : List Projectile) :
    ∀ s : State, bossInv s → bossInv (ps.foldl projectileStep s) := by
  induction ps with
  | nil => intro s h; exact h
  | cons p rest ih =>
    intro s h
    exact ih _ (bossInv_projectileStep s p h)

theorem bossInv_projectileAsteroidPass (s : State) (h : bossInv s) :
    bossInv (projectileAsteroidPass s) :=
  bossInv_projectileFold s.projectiles { s with projectiles := [] } h

theorem removeCollision_asteroids (dt : ℚ) (s : State) (a : Asteroid) :
    (removeCollision dt s a).1.asteroids = s.asteroids ∧
    (∀ a1, (removeCollision dt s a).2 = some a1 → a1.isBoss = a.isBoss) := by
  unfold removeCollision
  split_ifs with h1
  · exact ⟨rfl, by simp⟩
  · refine ⟨rfl, ?_⟩
    intro a1 ha1
    dsimp only at ha1
    split_ifs at ha1
    simp only [Option.some.injEq] at ha1
    rw [← ha1]
    exact Asteroid.Update_isBoss _ _ _ _

theorem asteroidShipLoop_bossCount (dt : ℚ) :
    ∀ (as : List Asteroid) (s : State),
      bossCount (asteroidShipLoop dt as s).asteroids ≤ bossCount s.asteroids + bossCount as := by
  intro as
  induction as with
  | nil => intro s; simp [asteroidShipLoop, bossCount]
  | cons a rest ih =>
    intro s
    obtain ⟨h1, h2⟩ := removeCollision_asteroids dt s a
    rcases hres : removeCollision dt s a with ⟨s1, o⟩
    rw [hres] at h1 h2
    simp only at h1 h2
    rw [bossCount_cons]
    cases o with
    | none =>
      simp only [asteroidShipLoop, hres]
      have := ih s1
      rw [h1] at this
      omega
    | some a1 =>
      simp only [asteroidShipLoop, hres]
      have hb : bossCount (s1.asteroids ++ [a1])
          = bossCount s.asteroids + (if a.isBoss then 1 else 0) := by
        rw [bossCount_append, bossCount_cons, h1, h2 a1 rfl]
        simp [bossCount]
      have := ih { s1 with asteroids := s1.asteroids ++ [a1] }
      change _ ≤ bossCount (s1.asteroids ++ [a1]) + _ at this
      rw [hb] at this
      omega

theorem bossInv_asteroidShipPass (inp : FrameInput) (s : State) (h : bossInv s) :
    bossInv (asteroidShipPass inp s) := by
  have hc := asteroidShipLoop_bossCount inp.dt s.asteroids { s with asteroids := [] }
  have hf := (asteroidShipLoop_counter_flag inp.dt s.asteroids { s with asteroids := [] }).2
  have hnil : bossCount ([] : List Asteroid) = 0 := rfl
  simp only [hnil, zero_add] at hc
  unfold bossInv at h ⊢
  unfold asteroidShipPass
  rw [hf]
  constructor
  · omega
  · intro hpos
    exact h.2 (by omega)

theorem pickupLoop_asteroids (dt : ℚ) :
    ∀ (pks : List Pickup) (s : State), (pickupLoop dt pks s).asteroids = s.asteroids := by
  intro pks
  induction pks with
  | nil => intro s; rfl
  | cons pk rest ih =>
    intro s
    have hstep : (pickupCollect dt s pk).1.asteroids = s.asteroids := by
      unfold pickupCollect
      split_ifs <;> rfl
    rcases hres : pickupCollect dt s pk with ⟨s1, o⟩
    rw [hres] at hstep
    cases o with
    | none =>
      simp only [pickupLoop, hres]
      rw [ih s1]; exact hstep
    | some pk1 =>
      simp only [pickupLoop, hres]
      rw [ih _]; exact hstep

theorem bossProjectileLoop_asteroids :
    ∀ (bps : List Projectile) (s : State), (bossProjectileLoop bps s).asteroids = s.asteroids := by
  intro bps
  induction bps with
  | nil => intro s; rfl
  | cons bp rest ih =>
    intro s
    unfold bossProjectileLoop
    split_ifs
    · rw [ih _]
    · rw [ih _]

theorem bossInv_afterShipPass (inp : FrameInput) (s : State) (h : bossInv s) :
    bossInv (bossProjectilePass (pickupPass inp (popupUpdateStep inp s))) := by
  have ha : (bossProjectilePass (pickupPass inp (popupUpdateStep inp s))).asteroids
      = s.asteroids := by
    unfold bossProjectilePass pickupPass popupUpdateStep
    rw [bossProjectileLoop_asteroids]
    simp only
    rw [pickupLoop_asteroids]
  have hf : (bossProjectilePass (pickupPass inp (popupUpdateStep inp s))).bossSpawned
      = s.bossSpawned := by
    unfold bossProjectilePass pickupPass popupUpdateStep
    rw [(bossProjectileLoop_counter_flag _ _).2]
    simp only
    rw [(pickupLoop_counter_flag _ _ _).2]
  unfold bossInv at h ⊢
  rw [ha, hf]
  exact h

theorem frameHead_asteroids (pf : Platform) (fuel : Nat) (inp : FrameInput) (s s1 : State)
    (h : frameHead pf fuel inp s = some s1) :
    s1.asteroids = (if restarts inp s then [] else s.asteroids) := by
  have t1 : (timersStep inp.dt s).asteroids = s.asteroids := by
    unfold timersStep
    dsimp only
    split_ifs <;> rfl
  have p1 : (pickupSpawnStep pf inp (timersStep inp.dt s)).asteroids
      = (timersStep inp.dt s).asteroids := by
    unfold pickupSpawnStep
    dsimp only
    split_ifs <;> rfl
  obtain ⟨tp, _, _⟩ := timersStep_keeps inp.dt s
  obtain ⟨pp, _, _⟩ := pickupSpawnStep_keeps pf inp (timersStep inp.dt s)
  have hr : restarts inp
      { pickupSpawnStep pf inp (timersStep inp.dt s) with
        player := PlayerShip.Update inp (pickupSpawnStep pf inp (timersStep inp.dt s)).player }
      = restarts inp s := by
    simp only [restarts, Ship.IsAlive, PlayerShip.Update_alive, pp, tp]
  have hrest : ∀ s0 : State, (restartStep pf inp s0).asteroids
      = (if restarts inp s0 then [] else s0.asteroids) := by
    intro s0
    unfold restartStep restarts
    cases (!s0.player.IsAlive && inp.keyR) <;> simp
  unfold frameHead shootingStep at h
  dsimp only at h
  split at h
  · exact absurd h (by simp)
  · simp only [Option.some.injEq] at h
    subst h
    refine (hrest _).trans ?_
    rw [hr]; dsimp only; rw [p1, t1]

theorem bossInv_frame (pf : Platform) (fuel : Nat) (inp : FrameInput) (s s1 : State)
    (h : bossInv s) (hf : frame pf fuel inp s = some s1) : bossInv s1 := by
  unfold frame at hf
  cases hh : frameHead pf fuel inp s with
  | none => rw [hh] at hf; exact absurd hf (by simp)
  | some sh =>
    rw [hh] at hf
    simp only [Option.some.injEq] at hf
    subst hf
    have ha := frameHead_asteroids pf fuel inp s sh hh
    have hflag := (frameHead_counter_flag pf fuel inp s sh hh).2
    have hinv : bossInv sh := by
      unfold bossInv at h ⊢
      rw [ha, hflag]
      cases restarts inp s
      · simpa using h
      · exact ⟨by simp [bossCount], by simp [bossCount]⟩
    unfold frameTail frameAfterCheck
    apply bossInv_afterShipPass
    apply bossInv_asteroidShipPass
    apply bossInv_projectileAsteroidPass
    exact bossInv_bossSpawnCheck pf inp _ (bossInv_asteroidSpawnStep pf inp _ hinv)

/-! ## Lemmas on the spawn geometry -/

theorem RandomFloat_mem (randMax r : Nat) (lo hi : ℚ) (hR : 0 < randMax) (hr : r ≤ randMax)
    (hlh : lo ≤ hi) :
    lo ≤ RandomFloat randMax r lo hi ∧ RandomFloat randMax r lo hi ≤ hi := by
  unfold RandomFloat
  have hR' : (0 : ℚ) < (randMax : ℚ) := by exact_mod_cast hR
  have h0 : (0 : ℚ) ≤ (r : ℚ) / (randMax : ℚ) := by positivity
  have h1 : (r : ℚ) / (randMax : ℚ) ≤ 1 := by
    rw [div_le_one hR']
    exact_mod_cast hr
  have hd : 0 ≤ hi - lo := by linarith
  constructor
  · nlinarith [mul_nonneg h0 hd]
  · nlinarith [mul_le_mul_of_nonneg_right h1 hd]

/-- For a vector that is not zero, `Vector2Normalize` followed by `Vector2Scale` with a
positive factor is a positive multiple of the vector. -/
theorem normalize_scale_pos (m : Libm) (hm : m.wellBehaved) (v : Vector2) (k : ℚ)
    (hk : 0 < k) (hv : 0 < v.x * v.x + v.y * v.y) :
    ∃ c : ℚ, 0 < c ∧ Vector2Scale (Vector2Normalize m v) k = ⟨v.x * c, v.y * c⟩ := by
  have hl : 0 < m.sqrtf (v.x * v.x + v.y * v.y) := hm.2.2 _ hv
  refine ⟨1 / m.sqrtf (v.x * v.x + v.y * v.y) * k, by positivity, ?_⟩
  simp only [Vector2Normalize, hl, if_true, Vector2Scale, Vector2.mk.injEq]
  constructor <;> ring

theorem dot_scaled_pos (v n : Vector2) (c : ℚ) (hc : 0 < c)
    (h : 0 < Vector2DotProduct v n) : 0 < Vector2DotProduct ⟨v.x * c, v.y * c⟩ n := by
  have : Vector2DotProduct ⟨v.x * c, v.y * c⟩ n = c * Vector2DotProduct v n := by
    simp only [Vector2DotProduct]; ring
  rw [this]
  exact mul_pos hc h

/-- The position and the velocity `Asteroid::init` sets, per chosen edge. -/
theorem Asteroid.init_spawn (m : Libm) (hm : m.wellBehaved) (randMax : Nat) (hR : 0 < randMax)
    (cls : AsteroidClass) (w h : Int) (hw : 0 < w) (hh : 0 < h) (d : InitDraws)
    (hpos : d.posRand ≤ randMax) (hrad : d.radRand ≤ randMax)
    (hspeed : d.speedRand ≤ randMax) :
    onSpawnEdge d.edgeDraw w h
        (Asteroid.baseGetRadius (Asteroid.init m randMax cls w h d).size)
        (Asteroid.init m randMax cls w h d).transform.position ∧
    0 < Vector2DotProduct (Asteroid.init m randMax cls w h d).physics.velocity
          (edgeInwardNormal d.edgeDraw) := by
  rcases d with ⟨sd, ed, pr, ar, rr, sr, rsr, rtr, raw⟩
  simp only at hpos hrad hspeed
  have hW : (0 : ℚ) < (w : ℚ) := by exact_mod_cast hw
  have hH : (0 : ℚ) < (h : ℚ) := by exact_mod_cast hh
  have hS : (0 : ℚ) < (((2 : Int) ^ sd.val : Int) : ℚ) := by
    have : (0 : Int) < (2 : Int) ^ sd.val := by positivity
    exact_mod_cast this
  have hmo0 : 0 ≤ min (w : ℚ) (h : ℚ) * (1 / 10) := by
    have := le_min hW.le hH.le
    linarith
  have hmoW : min (w : ℚ) (h : ℚ) * (1 / 10) ≤ (w : ℚ) / 10 := by
    have := min_le_left (w : ℚ) (h : ℚ)
    linarith
  have hmoH : min (w : ℚ) (h : ℚ) * (1 / 10) ≤ (h : ℚ) / 10 := by
    have := min_le_right (w : ℚ) (h : ℚ)
    linarith
  obtain ⟨hr0, hr1⟩ := RandomFloat_mem randMax rr 0 _ hR hrad hmo0
  obtain ⟨hx0, hx1⟩ := RandomFloat_mem randMax pr 0 (w : ℚ) hR hpos hW.le
  obtain ⟨hy0, hy1⟩ := RandomFloat_mem randMax pr 0 (h : ℚ) hR hpos hH.le
  obtain ⟨hs0, _⟩ := RandomFloat_mem randMax sr SPEED_MIN SPEED_MAX hR hspeed
    (by norm_num [SPEED_MIN, SPEED_MAX])
  have hsp : 0 < RandomFloat randMax sr SPEED_MIN SPEED_MAX := by
    have : (0 : ℚ) < SPEED_MIN := by norm_num [SPEED_MIN]
    linarith
  obtain ⟨hc0, hc1⟩ := hm.2.1 (RandomFloat randMax ar 0 (2 * m.PI))
  obtain ⟨hn0, hn1⟩ := hm.1 (RandomFloat randMax ar 0 (2 * m.PI))
  set rad := RandomFloat randMax rr 0 (min (w : ℚ) (h : ℚ) * (1 / 10)) with hrad_def
  set cs := m.cosf (RandomFloat randMax ar 0 (2 * m.PI)) with hcs_def
  set sn := m.sinf (RandomFloat randMax ar 0 (2 * m.PI)) with hsn_def
  have hcr : -rad ≤ cs * rad ∧ cs * rad ≤ rad := by
    constructor <;> nlinarith
  have hsr : -rad ≤ sn * rad ∧ sn * rad ≤ rad := by
    constructor <;> nlinarith
  fin_cases ed
  · -- top edge
    set v : Vector2 := Vector2Subtract
      ⟨(w : ℚ) * (1 / 2) + cs * rad, (h : ℚ) * (1 / 2) + sn * rad⟩
      ⟨RandomFloat randMax pr 0 (w : ℚ), -(Asteroid.baseGetRadius ((2 : Int) ^ sd.val))⟩
      with hv_def
    have hvy : 0 < v.y := by
      simp only [hv_def, Vector2Subtract, Asteroid.baseGetRadius]
      linarith [hsr.1]
    obtain ⟨c, hc, hvel⟩ := normalize_scale_pos m hm v _ hsp
      (add_pos_of_nonneg_of_pos (mul_self_nonneg _) (mul_pos hvy hvy))
    refine ⟨⟨rfl, hx0, hx1⟩, ?_⟩
    show 0 < Vector2DotProduct (Vector2Scale (Vector2Normalize m v) _) ⟨0, 1⟩
    rw [hvel]
    apply dot_scaled_pos v _ c hc
    simp only [Vector2DotProduct, mul_zero, mul_one, zero_add]
    exact hvy
  · -- right edge
    set v : Vector2 := Vector2Subtract
      ⟨(w : ℚ) * (1 / 2) + cs * rad, (h : ℚ) * (1 / 2) + sn * rad⟩
      ⟨(w : ℚ) + Asteroid.baseGetRadius ((2 : Int) ^ sd.val), RandomFloat randMax pr 0 (h : ℚ)⟩
      with hv_def
    have hvx : v.x < 0 := by
      simp only [hv_def, Vector2Subtract, Asteroid.baseGetRadius]
      linarith [hcr.2]
    obtain ⟨c, hc, hvel⟩ := normalize_scale_pos m hm v _ hsp
      (add_pos_of_pos_of_nonneg (mul_pos_of_neg_of_neg hvx hvx) (mul_self_nonneg _))
    refine ⟨⟨rfl, hy0, hy1⟩, ?_⟩
    show 0 < Vector2DotProduct (Vector2Scale (Vector2Normalize m v) _) ⟨-1, 0⟩
    rw [hvel]
    apply dot_scaled_pos v _ c hc
    simp only [Vector2DotProduct, mul_zero, add_zero, mul_neg, mul_one]
    linarith
  · -- bottom edge
    set v : Vector2 := Vector2Subtract
      ⟨(w : ℚ) * (1 / 2) + cs * rad, (h : ℚ) * (1 / 2) + sn * rad⟩
      ⟨RandomFloat randMax pr 0 (w : ℚ), (h : ℚ) + Asteroid.baseGetRadius ((2 : Int) ^ sd.val)⟩
      with hv_def
    have hvy : v.y < 0 := by
      simp only [hv_def, Vector2Subtract, Asteroid.baseGetRadius]
      linarith [hsr.2]
    obtain ⟨c, hc, hvel⟩ := normalize_scale_pos m hm v _ hsp
      (add_pos_of_nonneg_of_pos (mul_self_nonneg _) (mul_pos_of_neg_of_neg hvy hvy))
    refine ⟨⟨rfl, hx0, hx1⟩, ?_⟩
    show 0 < Vector2DotProduct (Vector2Scale (Vector2Normalize m v) _) ⟨0, -1⟩
    rw [hvel]
    apply dot_scaled_pos v _ c hc
    simp only [Vector2DotProduct, mul_zero, zero_add, mul_neg, mul_one]
    linarith
  · -- left edge
    set v : Vector2 := Vector2Subtract
      ⟨(w : ℚ) * (1 / 2) + cs * rad, (h : ℚ) * (1 / 2) + sn * rad⟩
      ⟨-(Asteroid.baseGetRadius ((2 : Int) ^ sd.val)), RandomFloat randMax pr 0 (h : ℚ)⟩
      with hv_def
    have hvx : 0 < v.x := by
      simp only [hv_def, Vector2Subtract, Asteroid.baseGetRadius]
      linarith [hcr.1]
    obtain ⟨c, hc, hvel⟩ := normalize_scale_pos m hm v _ hsp
      (add_pos_of_pos_of_nonneg (mul_pos hvx hvx) (mul_self_nonneg _))
    refine ⟨⟨rfl, hy0, hy1⟩, ?_⟩
    show 0 < Vector2DotProduct (Vector2Scale (Vector2Normalize m v) _) ⟨1, 0⟩
    rw [hvel]
    apply dot_scaled_pos v _ c hc
    simp only [Vector2DotProduct, mul_zero, add_zero, mul_one]
    exact hvx

/-! ## Lemmas on the triple-shot fields -/

theorem frameHead_eq (pf : Platform) (fuel : Nat) (inp : FrameInput) (s : State) :
    frameHead pf fuel inp s = shootingStep pf fuel inp (frameBeforeShooting pf inp s) := rfl

theorem frameBeforeShooting_triple (pf : Platform) (inp : FrameInput) (s : State) :
    tripleOf (frameBeforeShooting pf inp s) = tripleOf (timersStep inp.dt s) := by
  have h2 : ∀ s0 : State, tripleOf (pickupSpawnStep pf inp s0) = tripleOf s0 := by
    intro s0
    unfold pickupSpawnStep
    dsimp only
    split_ifs <;> rfl
  have h4 : ∀ s0 : State, tripleOf (restartStep pf inp s0) = tripleOf s0 := by
    intro s0
    unfold restartStep
    split_ifs <;> rfl
  unfold frameBeforeShooting
  dsimp only
  show tripleOf (restartStep pf inp _) = _
  rw [h4]
  exact h2 _

theorem shootingStep_triple (pf : Platform) (fuel : Nat) (inp : FrameInput) (s s1 : State)
    (h : shootingStep pf fuel inp s = some s1) : tripleOf s1 = tripleOf s := by
  unfold shootingStep at h
  split at h
  · exact absurd h (by simp)
  · simp only [Option.some.injEq] at h
    subst h
    rfl

theorem projectileFold_triple (ps : List Projectile) :
    ∀ s : State, tripleOf (ps.foldl projectileStep s) = tripleOf s := by
  induction ps with
  | nil => intro s; rfl
  | cons p rest ih =>
    intro s
    rw [List.foldl_cons, ih]
    cases hs : hitScan p s.asteroids with
    | none => rw [projectileStep_miss s p hs]; rfl
    | some r => rw [projectileStep_hit s p r hs]; rfl

theorem asteroidShipLoop_triple (dt : ℚ) :
    ∀ (as : List Asteroid) (s : State), tripleOf (asteroidShipLoop dt as s) = tripleOf s := by
  intro as
  induction as with
  | nil => intro s; rfl
  | cons a rest ih =>
    intro s
    have hstep : tripleOf (removeCollision dt s a).1 = tripleOf s := by
      unfold removeCollision
      split_ifs <;> rfl
    rcases hres : removeCollision dt s a with ⟨s1, o⟩
    rw [hres] at hstep
    cases o with
    | none =>
      simp only [asteroidShipLoop, hres]
      rw [ih s1]; exact hstep
    | some a1 =>
      simp only [asteroidShipLoop, hres]
      rw [ih _]; exact hstep

theorem bossProjectileLoop_triple :
    ∀ (bps : List Projectile) (s : State), tripleOf (bossProjectileLoop bps s) = tripleOf s := by
  intro bps
  induction bps with
  | nil => intro s; rfl
  | cons bp rest ih =>
    intro s
    unfold bossProjectileLoop
    split_ifs
    · rw [ih _]; rfl
    · rw [ih _]; rfl

theorem pickupCollect_triple (dt : ℚ) (s : State) (pk : Pickup) :
    tripleOf (pickupCollect dt s pk).1
      = (if tripleShotInRange s.player pk then (true, 5) else tripleOf s) := by
  unfold pickupCollect tripleShotInRange
  cases hr : pickupInRange s.player pk
  · simp
  · cases hty : pk.type
    · have hne : ¬ (PickupType.HEALTH = PickupType.TRIPLESHOT) := by decide
      simp only [Pickup.GetType, hty, if_true, hne, decide_False, Bool.and_false,
        Bool.false_eq_true, if_false]
      split_ifs <;> rfl
    · simp [Pickup.GetType, hty, tripleOf]

theorem pickupLoop_triple (dt : ℚ) (player : Ship) :
    ∀ (pks : List Pickup) (s : State),
      (∀ q, pickupInRange s.player q = pickupInRange player q) →
      tripleOf (pickupLoop dt pks s)
        = (if pks.any (tripleShotInRange player) then (true, 5) else tripleOf s) := by
  intro pks
  induction pks with
  | nil => intro s _; simp [pickupLoop]
  | cons pk rest ih =>
    intro s hs
    have ht := pickupCollect_triple dt s pk
    have hr : ∀ q, pickupInRange (pickupCollect dt s pk).1.player q = pickupInRange player q :=
      fun q => by rw [pickupCollect_inRange, hs q]
    have hin : tripleShotInRange s.player pk = tripleShotInRange player pk := by
      simp only [tripleShotInRange, hs pk]
    rw [hin] at ht
    rcases hres : pickupCollect dt s pk with ⟨s1, o⟩
    rw [hres] at ht hr
    simp only at ht hr
    have key : tripleOf (pickupLoop dt (pk :: rest) s)
        = (if rest.any (tripleShotInRange player) then (true, 5) else tripleOf s1) := by
      cases o with
      | none =>
        simp only [pickupLoop, hres]
        exact ih s1 hr
      | some pk1 =>
        simp only [pickupLoop, hres]
        exact ih { s1 with pickups := s1.pickups ++ [pk1] } hr
    rw [key, ht, List.any_cons]
    cases tripleShotInRange player pk <;> cases rest.any (tripleShotInRange player) <;> simp

theorem pickupPass_triple (inp : FrameInput) (s : State) :
    tripleOf (pickupPass inp s)
      = (if s.pickups.any (tripleShotInRange s.player) then (true, 5) else tripleOf s) :=
  pickupLoop_triple inp.dt s.player s.pickups { s with pickups := [] } (fun _ => rfl)

theorem frameBeforePickups_triple (pf : Platform) (fuel : Nat) (inp : FrameInput)
    (s s6 : State) (h : frameBeforePickups pf fuel inp s = some s6) :
    tripleOf s6 = tripleOf (timersStep inp.dt s) := by
  unfold frameBeforePickups at h
  cases hh : frameHead pf fuel inp s with
  | none => rw [hh] at h; exact absurd h (by simp)
  | some s1 =>
    rw [hh] at h
    simp only [Option.some.injEq] at h
    subst h
    have h1 : tripleOf s1 = tripleOf (timersStep inp.dt s) := by
      rw [frameHead_eq] at hh
      rw [shootingStep_triple pf fuel inp _ s1 hh]
      exact frameBeforeShooting_triple pf inp s
    have hspawn : tripleOf (asteroidSpawnStep pf inp s1) = tripleOf s1 := by
      unfold asteroidSpawnStep
      split_ifs <;> rfl
    have hboss : ∀ s0 : State, tripleOf (bossSpawnCheck pf inp s0) = tripleOf s0 := by
      intro s0
      unfold bossSpawnCheck
      split_ifs <;> rfl
    show tripleOf (asteroidShipLoop inp.dt _ _) = _
    rw [asteroidShipLoop_triple]
    show tripleOf (List.foldl projectileStep _ _) = _
    rw [projectileFold_triple]
    show tripleOf (bossSpawnCheck pf inp (asteroidSpawnStep pf inp s1)) = _
    rw [hboss, hspawn, h1]

theorem frame_eq_pickups (pf : Platform) (fuel : Nat) (inp : FrameInput) (s : State) :
    frame pf fuel inp s
      = (frameBeforePickups pf fuel inp s).map
          (fun s6 => bossProjectilePass (pickupPass inp s6)) := by
  unfold frame frameBeforePickups
  cases frameHead pf fuel inp s <;> rfl

/-- What a frame does to the triple-shot fields: a collected TripleShot pickup arms
them at (true, 5); otherwise they are as the timer update of the frame left them. -/
theorem frame_triple (pf : Platform) (fuel : Nat) (inp : FrameInput) (s s1 : State)
    (h : frame pf fuel inp s = some s1) :
    tripleOf s1 = (if collectsTripleShot pf fuel inp s then (true, 5)
      else tripleOf (timersStep inp.dt s)) := by
  rw [frame_eq_pickups] at h
  unfold collectsTripleShot
  cases h6 : frameBeforePickups pf fuel inp s with
  | none => rw [h6] at h; exact absurd h (by simp)
  | some s6 =>
    rw [h6] at h
    simp only [Option.map_some', Option.some.injEq] at h
    subst h
    unfold bossProjectilePass
    rw [bossProjectileLoop_triple]
    show tripleOf (pickupPass inp s6) = _
    rw [pickupPass_triple, frameBeforePickups_triple pf fuel inp s s6 h6]

/-- The timer update on triple-shot fields armed `c` seconds ago (`0 ≤ c`): after a
frame of `dt ≥ 0` they are those of fields armed `c + dt` seconds ago. -/
theorem timersStep_armed (dt c : ℚ) (s : State) (hdt : 0 ≤ dt)
    (h : tripleOf s = (decide (c < 5), if c < 5 then 5 - c else s.tripleShotTimer)) :
    (timersStep dt s).tripleShotActive = decide (c + dt < 5) ∧
    tripleOf (timersStep dt s)
      = (decide (c + dt < 5),
          if c + dt < 5 then 5 - (c + dt) else (timersStep dt s).tripleShotTimer) := by
  simp only [tripleOf, Prod.mk.injEq] at h
  obtain ⟨ha, ht⟩ := h
  by_cases hc : c < 5
  · simp only [hc, decide_True, if_true] at ha ht
    by_cases hcd : c + dt < 5
    · have h1 : ¬ (s.tripleShotTimer - dt ≤ 0) := by rw [ht]; linarith
      have h2 : s.tripleShotTimer - dt = 5 - (c + dt) := by rw [ht]; ring
      have h3 : ¬ (5 - (c + dt) ≤ 0) := by rw [← h2]; exact h1
      simp [timersStep, tripleOf, ha, hcd, h2, h3]
    · have h1 : s.tripleShotTimer - dt ≤ 0 := by rw [ht]; linarith
      simp [timersStep, tripleOf, ha, hcd, h1]
  · simp only [hc, decide_False] at ha
    have hcd : ¬ c + dt < 5 := by linarith
    simp [timersStep, tripleOf, ha, hcd]

/-- Triple-shot fields armed `c` seconds ago, after a run of frames with `dt ≥ 0` that
collects no TripleShot pickup, are those of fields armed `c` plus the frame times ago. -/
theorem runFrames_armed (pf : Platform) (fuel : Nat) :
    ∀ (inps : List FrameInput) (s sk : State) (c : ℚ),
      tripleOf s = (decide (c < 5), if c < 5 then 5 - c else s.tripleShotTimer) →
      (∀ i ∈ inps, 0 ≤ i.dt) →
      collectsNoTripleShot pf fuel inps s = true →
      runFrames pf fuel inps s = some sk →
      tripleOf sk = (decide (c + (inps.map FrameInput.dt).sum < 5),
        if c + (inps.map FrameInput.dt).sum < 5 then 5 - (c + (inps.map FrameInput.dt).sum)
        else sk.tripleShotTimer) := by
  intro inps
  induction inps with
  | nil =>
    intro s sk c h _ _ hrun
    have hsk : s = sk := Option.some.inj hrun
    subst hsk
    simpa using h
  | cons inp rest ih =>
    intro s sk c h hdt hno hrun
    cases hf : frame pf fuel inp s with
    | none =>
      rw [runFrames, hf] at hrun
      exact absurd hrun (by simp)
    | some s1 =>
      rw [runFrames, hf] at hrun
      rw [collectsNoTripleShot, hf] at hno
      replace hrun : runFrames pf fuel rest s1 = some sk := hrun
      replace hno : (!collectsTripleShot pf fuel inp s
          && collectsNoTripleShot pf fuel rest s1) = true := hno
      simp only [Bool.and_eq_true, Bool.not_eq_true'] at hno
      have h1 := frame_triple pf fuel inp s s1 hf
      rw [hno.1] at h1
      simp only [Bool.false_eq_true, if_false] at h1
      have h2 := (timersStep_armed inp.dt c s (hdt inp (List.mem_cons_self _ _)) h).2
      have h3 : tripleOf s1 = (decide (c + inp.dt < 5),
          if c + inp.dt < 5 then 5 - (c + inp.dt) else s1.tripleShotTimer) := by
        rw [h1, h2]
        have : (timersStep inp.dt s).tripleShotTimer = s1.tripleShotTimer := by
          have := congrArg Prod.snd h1
          simpa [tripleOf] using this.symm
        rw [this]
      have := ih s1 sk (c + inp.dt) h3 (fun i hi => hdt i (List.mem_cons_of_mem _ hi)) hno.2 hrun
      simpa [add_assoc] using this

/-! ## Theorems -/

/-- C1 (as stated, refuted): a new player ship has hp 100, inside [0,100], and after
`TakeDamage(200)` its `GetHP()` is -100, outside [0,100]. -/
theorem C1_hp_below_zero :
    0 ≤ (PlayerShip 64 2500 1300).hp ∧ (PlayerShip 64 2500 1300).hp ≤ 100 ∧
    ((PlayerShip 64 2500 1300).TakeDamage 200).GetHP = -100 ∧
    ¬ (0 ≤ ((PlayerShip 64 2500 1300).TakeDamage 200).GetHP ∧
        ((PlayerShip 64 2500 1300).TakeDamage 200).GetHP ≤ 100) := by
  decide

/-- C1 (amended): for every ship with hp at most 100 and every `d`, `GetHP()` after
`TakeDamage(d)` is at most 100; a ship that is not alive keeps its hp; for a ship
that is alive, when `hp - d` is representable, `GetHP()` is `min(100, hp - d)`, so it
is at least 0 exactly when `d ≤ hp`. -/
theorem C1_TakeDamage_upper_clamp (s : Ship) (d : Int) (hle : s.hp ≤ 100) :
    (s.TakeDamage d).GetHP ≤ 100 ∧
    (s.alive = false → (s.TakeDamage d).GetHP = s.hp) ∧
    (s.alive = true → isInt32 (s.hp - d) →
      (s.TakeDamage d).GetHP = min 100 (s.hp - d) ∧
      (0 ≤ (s.TakeDamage d).GetHP ↔ d ≤ s.hp)) := by
  refine ⟨?_, ?_, ?_⟩
  · unfold Ship.TakeDamage Ship.GetHP
    cases s.alive <;> simp
    · exact hle
    · split <;> omega
  · intro ha
    simp [Ship.TakeDamage, Ship.GetHP, ha]
  · intro ha hr
    have hw := wrapInt32_of_isInt32 hr
    simp only [Ship.TakeDamage, Ship.GetHP, ha, hw]
    simp
    split <;> omega

/-- C1 (amended) on a new player ship hit for 30: hp 70. -/
theorem C1_TakeDamage_upper_clamp_witness :
    ((PlayerShip 64 2500 1300).TakeDamage 30).GetHP ≤ 100 ∧
    ((PlayerShip 64 2500 1300).alive = false →
      ((PlayerShip 64 2500 1300).TakeDamage 30).GetHP = (PlayerShip 64 2500 1300).hp) ∧
    ((PlayerShip 64 2500 1300).alive = true → isInt32 ((PlayerShip 64 2500 1300).hp - 30) →
      ((PlayerShip 64 2500 1300).TakeDamage 30).GetHP
        = min 100 ((PlayerShip 64 2500 1300).hp - 30) ∧
      (0 ≤ ((PlayerShip 64 2500 1300).TakeDamage 30).GetHP ↔
        (30 : Int) ≤ (PlayerShip 64 2500 1300).hp)) :=
  C1_TakeDamage_upper_clamp (PlayerShip 64 2500 1300) 30 (by decide)

/-- C3 (as stated, refuted): a laser at (100, 800) moving up at 800 px/s is, after a
frame of one second, exactly on the boundary `y = 0` of a 2500 x 1300 screen, and
`Update` does not report it expired. -/
theorem C3_on_boundary_not_expired :
    (Projectile.Update ⟨2500, 1300⟩ 1
        (Projectile.new ⟨100, 800⟩ ⟨0, -800⟩ 10 WeaponType.LASER false)).1.GetPosition
      = ⟨100, 0⟩ ∧
    (Projectile.Update ⟨2500, 1300⟩ 1
        (Projectile.new ⟨100, 800⟩ ⟨0, -800⟩ 10 WeaponType.LASER false)).2 = false := by
  rw [Projectile.Update_fst, Projectile.Update_snd]
  simp [Projectile.new, Projectile.GetPosition, Vector2Add, Vector2Scale, Renderer.Width,
    Renderer.Height]
  norm_num

/-- C3 (amended): after `Projectile::Update` has integrated the position, it reports
expired exactly when the position is strictly outside the screen rectangle (x < 0,
x > width, y < 0 or y > height); a projectile on a boundary or inside is not expired. -/
theorem C3_expired_iff_strictly_outside (rd : Renderer) (dt : ℚ) (p : Projectile) :
    (Projectile.Update rd dt p).1.GetPosition
      = Vector2Add p.GetPosition (Vector2Scale p.physics.velocity dt) ∧
    ((Projectile.Update rd dt p).2 = true ↔
      ((Projectile.Update rd dt p).1.GetPosition.x < 0 ∨
        (Projectile.Update rd dt p).1.GetPosition.x > (rd.Width : ℚ) ∨
        (Projectile.Update rd dt p).1.GetPosition.y < 0 ∨
        (Projectile.Update rd dt p).1.GetPosition.y > (rd.Height : ℚ))) := by
  rw [Projectile.Update_fst, Projectile.Update_snd]
  simp [Projectile.GetPosition]

/-- C5 (as stated, refuted): the Boss the program constructs fires, in `Update`, a
projectile of weapon type BULLET with damage 40, while `MakeProjectile` gives a
projectile of the same weapon type damage 30. -/
theorem C5_bullet_damage_differs :
    (Asteroid.Update ⟨2500, 1300⟩ 2 (BossAsteroid libm0 32767 512 2500 1300 draws0) []).2.2
      = [Projectile.new ⟨1270, 0⟩ ⟨0, 900⟩ 40 WeaponType.BULLET true] ∧
    (Projectile.new ⟨1270, 0⟩ ⟨0, 900⟩ 40 WeaponType.BULLET true).type
      = (MakeProjectile libm0 WeaponType.BULLET ⟨1250, 600⟩ 3000 0).type ∧
    (Projectile.new ⟨1270, 0⟩ ⟨0, 900⟩ 40 WeaponType.BULLET true).GetDamage = 40 ∧
    (MakeProjectile libm0 WeaponType.BULLET ⟨1250, 600⟩ 3000 0).GetDamage = 30 := by
  refine ⟨?_, rfl, rfl, rfl⟩
  simp [Asteroid.Update, BossAsteroid, BossAsteroid.Update, Asteroid.init, Projectile.new]
  norm_num

/-- C5 (amended): the collision radius of every projectile depends only on its weapon
type; the damage of a projectile made by `MakeProjectile` depends only on its weapon
type (10 for Laser, 30 for Bullet, 200 for Rocket); every projectile `BossAsteroid::Update`
appends is a hostile BULLET with damage 40. -/
theorem C5_damage_and_radius (m : Libm) (pos : Vector2) (speed angleDeg : ℚ) :
    (∀ p q : Projectile, p.type = q.type → p.GetRadius = q.GetRadius) ∧
    (∀ wt, (MakeProjectile m wt pos speed angleDeg).type = wt ∧
      (MakeProjectile m wt pos speed angleDeg).isEnemy = false) ∧
    (MakeProjectile m WeaponType.LASER pos speed angleDeg).GetDamage = 10 ∧
    (MakeProjectile m WeaponType.BULLET pos speed angleDeg).GetDamage = 30 ∧
    (MakeProjectile m WeaponType.ROCKET pos speed angleDeg).GetDamage = 200 ∧
    (∀ (rd : Renderer) (dt : ℚ) (a : Asteroid) (b : BossFields) (bp : List Projectile),
      (BossAsteroid.Update rd dt a b bp).2.2 = bp ∨
      ∃ p : Projectile, (BossAsteroid.Update rd dt a b bp).2.2 = bp ++ [p] ∧
        p.type = WeaponType.BULLET ∧ p.isEnemy = true ∧ p.GetDamage = 40 ∧
        p.GetRadius = 5) := by
  refine ⟨?_, ?_, rfl, rfl, rfl, ?_⟩
  · intro p q hpq
    simp [Projectile.GetRadius, hpq]
  · intro wt
    exact ⟨rfl, rfl⟩
  · intro rd dt a b bp
    by_cases hf : b.shootTimer + dt ≥ b.shootInterval
    · right
      refine ⟨Projectile.new
        ⟨(BossAsteroid.Update rd dt a b bp).1.transform.position.x + 20,
          (BossAsteroid.Update rd dt a b bp).1.transform.position.y⟩
        ⟨0, 900⟩ 40 WeaponType.BULLET true, ?_, rfl, rfl, rfl, ?_⟩
      · simp only [BossAsteroid.Update, hf, decide_True, if_true]
      · simp [Projectile.GetRadius, Projectile.new]
    · left
      simp only [BossAsteroid.Update, hf, decide_False]
      rfl

/-- C9: for an asteroid with hp `h` and an amount `a > 0` with `h - a` representable,
after `TakeDamage(a)` `GetHP()` is `h - a`, which is at most `h`, and `IsDestroyed()`
holds exactly when `GetHP() ≤ 0`; from hp 30, three hits of 10 give hp 20, 10 and 0,
with `IsDestroyed()` false after the second hit and true after the third. -/
theorem C9_asteroid_TakeDamage (a : Asteroid) (amt : Int) (hpos : 0 < amt)
    (hrep : isInt32 (a.hp - amt)) :
    (a.TakeDamage amt).GetHP = a.GetHP - amt ∧
    (a.TakeDamage amt).GetHP ≤ a.GetHP ∧
    ((a.TakeDamage amt).IsDestroyed = true ↔ (a.TakeDamage amt).GetHP ≤ 0) ∧
    (a.GetHP = 30 → amt = 10 →
      (a.TakeDamage amt).GetHP = 20 ∧
      ((a.TakeDamage amt).TakeDamage amt).GetHP = 10 ∧
      ((a.TakeDamage amt).TakeDamage amt).IsDestroyed = false ∧
      (((a.TakeDamage amt).TakeDamage amt).TakeDamage amt).GetHP = 0 ∧
      (((a.TakeDamage amt).TakeDamage amt).TakeDamage amt).IsDestroyed = true) := by
  have h1 : (a.TakeDamage amt).GetHP = a.GetHP - amt := by
    simp only [Asteroid.TakeDamage, Asteroid.GetHP]
    exact wrapInt32_of_isInt32 hrep
  refine ⟨h1, ?_, ?_, ?_⟩
  · rw [h1]; omega
  · simp [Asteroid.IsDestroyed, Asteroid.GetHP]
  · intro h30 h10
    subst h10
    simp only [Asteroid.GetHP] at h30
    simp only [Asteroid.TakeDamage, Asteroid.GetHP, Asteroid.IsDestroyed, h30]
    decide

/-- C9 on a small triangle asteroid built with hp 30, hit for 10. -/
theorem C9_asteroid_TakeDamage_witness :
    ((TriangleAsteroid libm0 32767 2500 1300 draws0).TakeDamage 10).GetHP
      = (TriangleAsteroid libm0 32767 2500 1300 draws0).GetHP - 10 ∧
    ((TriangleAsteroid libm0 32767 2500 1300 draws0).TakeDamage 10).GetHP
      ≤ (TriangleAsteroid libm0 32767 2500 1300 draws0).GetHP ∧
    (((TriangleAsteroid libm0 32767 2500 1300 draws0).TakeDamage 10).IsDestroyed = true ↔
      ((TriangleAsteroid libm0 32767 2500 1300 draws0).TakeDamage 10).GetHP ≤ 0) ∧
    ((TriangleAsteroid libm0 32767 2500 1300 draws0).GetHP = 30 → (10 : Int) = 10 →
      ((TriangleAsteroid libm0 32767 2500 1300 draws0).TakeDamage 10).GetHP = 20 ∧
      (((TriangleAsteroid libm0 32767 2500 1300 draws0).TakeDamage 10).TakeDamage 10).GetHP
        = 10 ∧
      (((TriangleAsteroid libm0 32767 2500 1300 draws0).TakeDamage 10).TakeDamage
        10).IsDestroyed = false ∧
      ((((TriangleAsteroid libm0 32767 2500 1300 draws0).TakeDamage 10).TakeDamage
        10).TakeDamage 10).GetHP = 0 ∧
      ((((TriangleAsteroid libm0 32767 2500 1300 draws0).TakeDamage 10).TakeDamage
        10).TakeDamage 10).IsDestroyed = true) :=
  C9_asteroid_TakeDamage (TriangleAsteroid libm0 32767 2500 1300 draws0) 10 (by decide)
    (by decide)

/-- C4: for a fire rate `r > 0` and frames with non-negative `dt` summing to `T`, in
each of which the player is alive, the fire key is held and the weapon has fire rate
`r`, starting from `shotTimer = 0`: with an iteration budget of `floor(T*r)` the loops
all run to their end, the number of shot events is exactly `floor(T*r)`, the timer left
is in `[0, 1/r)`, every shot event appends 2 projectiles, or 4 when triple-shot is
active, and so the projectiles appended number twice the events when triple-shot is
never active and four times when it always is. -/
theorem C4_fire_control (m : Libm) (w : WeaponType) (r : ℚ) (hr : 0 < r)
    (frames : List FireFrame) (fuel : Nat)
    (hdt : ∀ f ∈ frames, 0 ≤ f.dt)
    (halive : ∀ f ∈ frames, f.player.IsAlive = true)
    (hheld : ∀ f ∈ frames, f.keySpace = true)
    (hrate : ∀ f ∈ frames, f.player.GetFireRate w = r)
    (hfuel : ⌊(frames.map FireFrame.dt).sum * r⌋.toNat ≤ fuel) :
    (∃ (t : ℚ) (n k : Nat), fireRun m w fuel frames 0 = some (t, n, k) ∧
      (n : Int) = ⌊(frames.map FireFrame.dt).sum * r⌋ ∧
      0 ≤ t ∧ t < 1 / r ∧
      t = (frames.map FireFrame.dt).sum - (⌊(frames.map FireFrame.dt).sum * r⌋ : ℚ) / r ∧
      2 * n ≤ k ∧ k ≤ 4 * n ∧
      ((∀ f ∈ frames, f.tripleShotActive = false) → k = 2 * n) ∧
      ((∀ f ∈ frames, f.tripleShotActive = true) → k = 4 * n)) ∧
    (∀ (player : Ship) (v : ℚ) (triple : Bool) (ps : List Projectile),
      (shotEvent m player w v triple ps).length
        = ps.length + (if triple then 4 else 2)) := by
  refine ⟨?_, fun player v triple ps => shotEvent_length m player w v triple ps⟩
  have hi : 0 < 1 / r := by positivity
  have hdiv : ∀ x : ℚ, x / (1 / r) = x * r := by
    intro x; field_simp
  obtain ⟨t, n, k, heq, hsum, h0, hlt, hk2, hk4, hfalse, htrue⟩ :=
    fireRun_spec m w r hr fuel frames 0 le_rfl hi hdt halive hheld hrate
      (by rw [zero_add, hdiv]; exact hfuel)
  rw [zero_add] at hsum
  have hn : ⌊(frames.map FireFrame.dt).sum * r⌋ = (n : Int) := by
    rw [Int.floor_eq_iff]
    have ht' : t * r < 1 := by
      have := mul_lt_mul_of_pos_right hlt hr
      rwa [one_div, inv_mul_cancel₀ hr.ne'] at this
    have hexp : (frames.map FireFrame.dt).sum * r = t * r + n := by
      rw [hsum]; field_simp
    constructor
    · rw [hexp]
      have : 0 ≤ t * r := mul_nonneg h0 hr.le
      push_cast
      linarith
    · rw [hexp]
      push_cast
      linarith
  refine ⟨t, n, k, heq, hn.symm, h0, hlt, ?_, hk2, hk4, hfalse, htrue⟩
  rw [hn, hsum]
  push_cast
  field_simp

/-- The frame times of `fireFrames0` sum to 29/120. -/
theorem fireFrames0_sum : (fireFrames0.map FireFrame.dt).sum = 29 / 120 := by
  simp [fireFrames0]; norm_num

/-- C4 on `fireFrames0`: a laser (20 shots/s) held for 29/120 s, with budget 10. -/
theorem C4_fire_control_witness :
    (∃ (t : ℚ) (n k : Nat),
      fireRun libm0 WeaponType.LASER 10 fireFrames0 0 = some (t, n, k) ∧
      (n : Int) = ⌊(fireFrames0.map FireFrame.dt).sum * 20⌋ ∧
      0 ≤ t ∧ t < 1 / 20 ∧
      t = (fireFrames0.map FireFrame.dt).sum
        - (⌊(fireFrames0.map FireFrame.dt).sum * 20⌋ : ℚ) / 20 ∧
      2 * n ≤ k ∧ k ≤ 4 * n ∧
      ((∀ f ∈ fireFrames0, f.tripleShotActive = false) → k = 2 * n) ∧
      ((∀ f ∈ fireFrames0, f.tripleShotActive = true) → k = 4 * n)) ∧
    (∀ (player : Ship) (v : ℚ) (triple : Bool) (ps : List Projectile),
      (shotEvent libm0 player WeaponType.LASER v triple ps).length
        = ps.length + (if triple then 4 else 2)) :=
  C4_fire_control libm0 WeaponType.LASER 20 (by norm_num) fireFrames0 10
    (by intro f hf; simp [fireFrames0] at hf; rcases hf with rfl | rfl | rfl <;> norm_num)
    (by intro f hf; simp [fireFrames0] at hf; rcases hf with rfl | rfl | rfl <;> rfl)
    (by intro f hf; simp [fireFrames0] at hf; rcases hf with rfl | rfl | rfl <;> rfl)
    (by intro f hf; simp [fireFrames0] at hf; rcases hf with rfl | rfl | rfl <;> rfl)
    (by
      rw [fireFrames0_sum]
      have h : ⌊(29 / 120 : ℚ) * 20⌋ = 4 := by
        rw [Int.floor_eq_iff]; norm_num
      rw [h]; decide)

/-- C8: in the projectile-asteroid pass, every projectile either finds no asteroid
within the sum of the radii, is kept and changes nothing, or hits the first such
asteroid in collection order among those still there at its turn: then only that
asteroid is damaged, the projectile is removed, one popup is added, and the asteroid
is removed and the destroyed counter incremented by 1 exactly when its hp is at most 0
after the hit. Over the whole pass the counter's increase equals the number of
asteroids removed, the popups added number the projectiles removed, and the
projectiles left are the unhit ones in their order. -/
theorem C8_projectile_asteroid_pass :
    (∀ (s : State) (p : Projectile),
      ((∀ a ∈ s.asteroids, projectileHits p a = false) ∧
        projectileStep s p = { s with projectiles := s.projectiles ++ [p] }) ∨
      (∃ (pre : List Asteroid) (a : Asteroid) (post : List Asteroid),
        s.asteroids = pre ++ a :: post ∧ (∀ b ∈ pre, projectileHits p b = false) ∧
        projectileHits p a = true ∧
        (projectileStep s p).projectiles = s.projectiles ∧
        (projectileStep s p).damagePopups
          = s.damagePopups ++ [DamagePopup.new a.GetPosition p.GetDamage] ∧
        ((a.TakeDamage p.GetDamage).GetHP ≤ 0 →
          (projectileStep s p).asteroids = pre ++ post ∧
          (projectileStep s p).asteroidsDestroyed = s.asteroidsDestroyed + 1) ∧
        (¬ (a.TakeDamage p.GetDamage).GetHP ≤ 0 →
          (projectileStep s p).asteroids = pre ++ a.TakeDamage p.GetDamage :: post ∧
          (projectileStep s p).asteroidsDestroyed = s.asteroidsDestroyed))) ∧
    (∀ s : State,
      projectileAsteroidPass s = s.projectiles.foldl projectileStep { s with projectiles := [] } ∧
      (projectileAsteroidPass s).asteroidsDestroyed - s.asteroidsDestroyed
        = (s.asteroids.length : Int) - (projectileAsteroidPass s).asteroids.length ∧
      (projectileAsteroidPass s).asteroids.length ≤ s.asteroids.length ∧
      (projectileAsteroidPass s).damagePopups.length + (projectileAsteroidPass s).projectiles.length
        = s.damagePopups.length + s.projectiles.length ∧
      (projectileAsteroidPass s).projectiles.Sublist s.projectiles) := by
  constructor
  · intro s p
    cases h : hitScan p s.asteroids with
    | none => exact Or.inl ⟨hitScan_none p s.asteroids h, projectileStep_miss s p h⟩
    | some r =>
      right
      obtain ⟨pre, a, post, hsplit, hpre, hhit, hpop, hdes, _, hast⟩ :=
        hitScan_some p s.asteroids r h
      refine ⟨pre, a, post, hsplit, hpre, hhit, ?_, ?_, ?_, ?_⟩
      · rw [projectileStep_hit s p r h]
      · rw [projectileStep_hit s p r h, hpop]
      · intro hle
        have hd : r.destroyed = true := by
          rw [hdes]; simpa [Asteroid.IsDestroyed, Asteroid.GetHP] using hle
        rw [projectileStep_hit s p r h]
        simp [hast, hd]
      · intro hnle
        have hd : r.destroyed = false := by
          rw [hdes]; simpa [Asteroid.IsDestroyed, Asteroid.GetHP] using hnle
        rw [projectileStep_hit s p r h]
        simp [hast, hd]
  · intro s
    obtain ⟨h1, h2, kept, hk, hsub⟩ :=
      projectileFold_counts s.projectiles { s with projectiles := [] }
    have hlen : (projectileAsteroidPass s).asteroids.length ≤ s.asteroids.length := by
      have key : ∀ (ps : List Projectile) (t : State),
          (ps.foldl projectileStep t).asteroids.length ≤ t.asteroids.length := by
        intro ps
        induction ps with
        | nil => intro t; exact le_rfl
        | cons p rest ih =>
          intro t
          refine le_trans (ih (projectileStep t p)) ?_
          cases h : hitScan p t.asteroids with
          | none => rw [projectileStep_miss t p h]
          | some r =>
            rw [projectileStep_hit t p r h]
            obtain ⟨pre, a, post, hsplit, _, _, _, _, _, hast⟩ := hitScan_some p t.asteroids r h
            simp only [hast, hsplit]
            cases r.destroyed <;> simp
      exact key s.projectiles { s with projectiles := [] }
    refine ⟨rfl, ?_, hlen, ?_, ?_⟩
    · unfold projectileAsteroidPass at hlen ⊢
      simp only at h1 hlen
      omega
    · unfold projectileAsteroidPass
      simp only [List.length_nil, add_zero] at h2
      exact h2
    · unfold projectileAsteroidPass
      rw [hk]
      simpa using hsub

/-- C10: in the pickup-ship pass every pickup within the sum of the two radii of the
player is removed; when such a pickup is a Health pickup and the player is alive with
hp `h` in [1,100], the player's hp after it is `min(100, h + 25)`; a pickup out of
range leaves the state as it is and is removed exactly when its own `Update` reports
that its lifetime has run out; so the pickups left by the pass are those out of range
and not run out, in their order. -/
theorem C10_pickup_pass (dt : ℚ) (s : State) (pk : Pickup) :
    (pickupInRange s.player pk = true → (pickupCollect dt s pk).2 = none) ∧
    (pickupInRange s.player pk = true → pk.GetType = PickupType.HEALTH →
      s.player.IsAlive = true → 1 ≤ s.player.GetHP → s.player.GetHP ≤ 100 →
      (pickupCollect dt s pk).1.player.GetHP = min 100 (s.player.GetHP + 25)) ∧
    (pickupInRange s.player pk = false →
      (pickupCollect dt s pk).1 = s ∧
      ((pickupCollect dt s pk).2 = none ↔ (Pickup.Update dt pk).2 = true) ∧
      ((Pickup.Update dt pk).2 = true ↔ pk.lifetime - dt ≤ 0) ∧
      ((Pickup.Update dt pk).2 = false →
        (pickupCollect dt s pk).2 = some (Pickup.Update dt pk).1)) ∧
    (∀ inp : FrameInput, (pickupPass inp s).pickups =
      (s.pickups.filter (pickupStays s.player inp.dt)).map
        (fun q => (Pickup.Update inp.dt q).1)) := by
  refine ⟨?_, ?_, ?_, ?_⟩
  · intro hr
    rw [pickupCollect_kept]
    simp [hr]
  · intro hr hty halive h1 h100
    simp only [Ship.GetHP, Ship.IsAlive] at halive h1 h100 ⊢
    by_cases hlt : s.player.hp < 100
    · have hrep : isInt32 (s.player.hp - (-25)) := by
        unfold isInt32; omega
      simp only [pickupCollect, hr, hty, if_true, Ship.GetHP, hlt, Ship.TakeDamage, halive,
        wrapInt32_of_isInt32 hrep]
      simp
      split <;> omega
    · simp only [pickupCollect, hr, hty, if_true, Ship.GetHP, hlt, if_false]
      omega
  · intro hr
    refine ⟨?_, ?_, ?_, ?_⟩
    · simp [pickupCollect, hr]
    · rw [pickupCollect_kept]
      simp [hr, Pickup.Update]
    · simp [Pickup.Update]
    · intro hu
      rw [pickupCollect_kept]
      simp only [Pickup.Update, decide_eq_false_iff_not] at hu
      simp [hr, hu]
  · intro inp
    have := pickupLoop_pickups inp.dt s.player s.pickups { s with pickups := [] }
      (fun q => rfl)
    simpa [pickupPass] using this

/-- C6 (as stated, refuted): from a state with 49 destroyed and no Boss, the frame in
which a laser destroys the 50th asteroid ends with the counter at 50, no Boss in the
asteroid collection and `bossSpawned` false; the Boss is appended by the next frame. -/
theorem C6_no_boss_on_same_frame :
    state49.asteroidsDestroyed = 49 ∧ state49.bossSpawned = false ∧
    (frame platform0 0 input0 state49).map
        (fun s => (s.asteroidsDestroyed, s.asteroids.map Asteroid.isBoss, s.bossSpawned))
      = some (50, [], false) ∧
    ((frame platform0 0 input0 state49).bind (frame platform0 0 input0)).map
        (fun s => (s.asteroidsDestroyed, s.asteroids.map Asteroid.isBoss, s.bossSpawned))
      = some (50, [true], true) := by
  refine ⟨rfl, rfl, ?_, ?_⟩
  · decide!
  · decide!

/-- C6 (amended): the boss spawn check appends exactly one Boss to the asteroid
collection and sets `bossSpawned` when the destroyed counter is positive and a multiple
of 50 and `bossSpawned` is false, and changes nothing otherwise, so nothing while
`bossSpawned` stays true. In a frame the check runs before the collision passes, on the
counter and the flag the frame started with (0 and false after a restart): a counter
that reaches 50 in a frame's collision pass is seen by the check of the next frame.
After the check only the projectile-asteroid pass writes the flag, and one step of it
changes the flag only by clearing it when it erases a destroyed Boss. -/
theorem C6_boss_spawn_check (pf : Platform) (inp : FrameInput) :
    (∀ s : State, s.asteroidsDestroyed > 0 → Int.tmod s.asteroidsDestroyed 50 = 0 →
      s.bossSpawned = false →
      (bossSpawnCheck pf inp s).asteroids = s.asteroids ++
        [BossAsteroid pf.m pf.randMax pf.bossTexW C_WIDTH C_HEIGHT inp.bossDraws] ∧
      (BossAsteroid pf.m pf.randMax pf.bossTexW C_WIDTH C_HEIGHT inp.bossDraws).isBoss = true ∧
      (bossSpawnCheck pf inp s).bossSpawned = true ∧
      (bossSpawnCheck pf inp s).asteroidsDestroyed = s.asteroidsDestroyed) ∧
    (∀ s : State,
      (s.bossSpawned = true ∨ s.asteroidsDestroyed ≤ 0 ∨ Int.tmod s.asteroidsDestroyed 50 ≠ 0) →
      bossSpawnCheck pf inp s = s) ∧
    (∀ (fuel : Nat) (s : State),
      frame pf fuel inp s = (frameHead pf fuel inp s).map
        (fun s1 => frameAfterCheck inp (bossSpawnCheck pf inp (asteroidSpawnStep pf inp s1)))) ∧
    (∀ (fuel : Nat) (s s1 : State), frameHead pf fuel inp s = some s1 →
      (asteroidSpawnStep pf inp s1).asteroidsDestroyed
        = (if restarts inp s then 0 else s.asteroidsDestroyed) ∧
      (asteroidSpawnStep pf inp s1).bossSpawned
        = (if restarts inp s then false else s.bossSpawned)) ∧
    (∀ s : State,
      (frameAfterCheck inp s).bossSpawned
        = (projectileAsteroidPass (projectileUpdateStep inp s)).bossSpawned ∧
      (frameAfterCheck inp s).asteroidsDestroyed
        = (projectileAsteroidPass (projectileUpdateStep inp s)).asteroidsDestroyed) ∧
    (∀ (s : State) (p : Projectile), (projectileStep s p).bossSpawned ≠ s.bossSpawned →
      (projectileStep s p).bossSpawned = false ∧
      (projectileStep s p).asteroidsDestroyed = s.asteroidsDestroyed + 1 ∧
      ∃ a ∈ s.asteroids, a.isBoss = true ∧ projectileHits p a = true ∧
        (a.TakeDamage p.GetDamage).GetHP ≤ 0) := by
  refine ⟨?_, ?_, ?_, ?_, ?_, projectileStep_flag⟩
  · intro s h1 h2 h3
    refine ⟨?_, rfl, ?_, ?_⟩ <;> simp [bossSpawnCheck, h1, h2, h3]
  · intro s h
    unfold bossSpawnCheck
    rw [if_neg]
    rintro ⟨h1, h2, h3⟩
    rcases h with h | h | h
    · rw [h3] at h; exact absurd h (by simp)
    · omega
    · exact h h2
  · intro fuel s
    unfold frame frameTail
    cases frameHead pf fuel inp s <;> rfl
  · intro fuel s s1 h
    obtain ⟨h1, h2⟩ := frameHead_counter_flag pf fuel inp s s1 h
    obtain ⟨g1, g2⟩ := asteroidSpawnStep_counter_flag pf inp s1
    exact ⟨g1.trans h1, g2.trans h2⟩
  · intro s
    obtain ⟨h1, h2⟩ :=
      afterProjectilePass_counter_flag inp (projectileAsteroidPass (projectileUpdateStep inp s))
    exact ⟨h2, h1⟩

/-- C6 (amended) on the state the counterexample's first frame ends in, 50 destroyed
and no Boss: the check appends the Boss and sets `bossSpawned`; run again on its own
result, where `bossSpawned` is true, it changes nothing. -/
theorem C6_boss_spawn_check_witness :
    ((bossSpawnCheck platform0 input0 { state49 with asteroidsDestroyed := 50 }).asteroids
        = state49.asteroids ++ [BossAsteroid libm0 32767 1024 C_WIDTH C_HEIGHT draws0] ∧
      (BossAsteroid libm0 32767 1024 C_WIDTH C_HEIGHT draws0).isBoss = true ∧
      (bossSpawnCheck platform0 input0 { state49 with asteroidsDestroyed := 50 }).bossSpawned
        = true ∧
      (bossSpawnCheck platform0 input0
        { state49 with asteroidsDestroyed := 50 }).asteroidsDestroyed = 50) ∧
    bossSpawnCheck platform0 input0
        (bossSpawnCheck platform0 input0 { state49 with asteroidsDestroyed := 50 })
      = bossSpawnCheck platform0 input0 { state49 with asteroidsDestroyed := 50 } :=
  ⟨(C6_boss_spawn_check platform0 input0).1 { state49 with asteroidsDestroyed := 50 }
      (by decide) (by decide) rfl,
    (C6_boss_spawn_check platform0 input0).2.1
      (bossSpawnCheck platform0 input0 { state49 with asteroidsDestroyed := 50 })
      (Or.inl (by decide!))⟩

/-- C7 (the code at the failing input): the player is dead and R is pressed; the
restart step gives a new ship (hp 100, alive), empties asteroids, projectiles and
pickups, zeroes the destroyed counter and the spawn timer, clears `bossSpawned` and
keeps weapon and shape, but the boss projectile and the damage popup are still there. -/
theorem C7_restart_leaves_boss_projectiles_and_popups :
    stateDead.player.IsAlive = false ∧
    (restartStep platform0 { input0 with keyR := true } stateDead).player.GetHP = 100 ∧
    (restartStep platform0 { input0 with keyR := true } stateDead).player.IsAlive = true ∧
    (restartStep platform0 { input0 with keyR := true } stateDead).asteroids = [] ∧
    (restartStep platform0 { input0 with keyR := true } stateDead).projectiles = [] ∧
    (restartStep platform0 { input0 with keyR := true } stateDead).pickups = [] ∧
    (restartStep platform0 { input0 with keyR := true } stateDead).asteroidsDestroyed = 0 ∧
    (restartStep platform0 { input0 with keyR := true } stateDead).spawnTimer = 0 ∧
    (restartStep platform0 { input0 with keyR := true } stateDead).bossSpawned = false ∧
    (restartStep platform0 { input0 with keyR := true } stateDead).currentWeapon
      = stateDead.currentWeapon ∧
    (restartStep platform0 { input0 with keyR := true } stateDead).currentShape
      = stateDead.currentShape ∧
    (restartStep platform0 { input0 with keyR := true } stateDead).bossProjectiles
      = [Projectile.new ⟨1270, 300⟩ ⟨0, 900⟩ 40 WeaponType.BULLET true] ∧
    (restartStep platform0 { input0 with keyR := true } stateDead).damagePopups
      = [DamagePopup.new ⟨400, 300⟩ 10] := by
  decide!

/-- C8 on `stateHits`: the first laser hits `target0`, the first asteroid in range,
which is destroyed; the second laser, at the same place, then hits `target1`, which
survives with hp 20; the third laser hits nothing and is the one projectile left; two
popups are added and the counter goes from 7 to 8 as the asteroids go from 3 to 2. -/
theorem C8_projectile_asteroid_pass_witness :
    ((projectileAsteroidPass stateHits).asteroids = [target1.TakeDamage 10, target2] ∧
      (projectileAsteroidPass stateHits).projectiles
        = [MakeProjectile libm0 WeaponType.LASER ⟨1000, 100⟩ 800 0] ∧
      (projectileAsteroidPass stateHits).damagePopups
        = [DamagePopup.new ⟨400, 300⟩ 10, DamagePopup.new ⟨410, 300⟩ 10] ∧
      (projectileAsteroidPass stateHits).asteroidsDestroyed = 8) ∧
    (projectileAsteroidPass stateHits
        = stateHits.projectiles.foldl projectileStep { stateHits with projectiles := [] } ∧
      (projectileAsteroidPass stateHits).asteroidsDestroyed - stateHits.asteroidsDestroyed
        = (stateHits.asteroids.length : Int) - (projectileAsteroidPass stateHits).asteroids.length ∧
      (projectileAsteroidPass stateHits).asteroids.length ≤ stateHits.asteroids.length ∧
      (projectileAsteroidPass stateHits).damagePopups.length
          + (projectileAsteroidPass stateHits).projectiles.length
        = stateHits.damagePopups.length + stateHits.projectiles.length ∧
      (projectileAsteroidPass stateHits).projectiles.Sublist stateHits.projectiles) :=
  ⟨by decide!, C8_projectile_asteroid_pass.2 stateHits⟩

/-- C10 on `statePickups`: the Health pickup in range is removed and takes the player
from hp 90 to 100 = min(100, 115); the pickup out of range whose lifetime runs out in
this frame is removed; the third pickup stays, its lifetime cut by `dt`. -/
theorem C10_pickup_pass_witness :
    (pickupInRange statePickups.player (Pickup.new 512 512 ⟨1280, 650⟩ PickupType.HEALTH) = true ∧
      statePickups.player.IsAlive = true ∧ statePickups.player.GetHP = 90 ∧
      (pickupCollect (1 / 100) statePickups
        (Pickup.new 512 512 ⟨1280, 650⟩ PickupType.HEALTH)).2 = none ∧
      (pickupCollect (1 / 100) statePickups
        (Pickup.new 512 512 ⟨1280, 650⟩ PickupType.HEALTH)).1.player.GetHP = 100 ∧
      (pickupPass input0 statePickups).player.GetHP = 100 ∧
      (pickupPass input0 statePickups).pickups
        = [{ Pickup.new 512 512 ⟨200, 1000⟩ PickupType.HEALTH with lifetime := 999 / 100 }]) ∧
    (pickupCollect (1 / 100) statePickups
        (Pickup.new 512 512 ⟨1280, 650⟩ PickupType.HEALTH)).1.player.GetHP
      = min 100 (statePickups.player.GetHP + 25) :=
  ⟨by decide!,
    (C10_pickup_pass (1 / 100) statePickups
      (Pickup.new 512 512 ⟨1280, 650⟩ PickupType.HEALTH)).2.1
      (by decide!) rfl (by decide!) (by decide!) (by decide!)⟩

/-- C13: starting from a newly constructed ship (hp 100, alive), after any sequence
of `TakeDamage` calls with arbitrary amounts `IsAlive()` is true exactly when
`GetHP() > 0`; on a ship that is not alive a further `TakeDamage`, whatever the amount
(negative ones included), returns the ship as it is, hp and alive flag unchanged. -/
theorem C13_alive_iff_hp_positive (texW w h : Int) :
    (PlayerShip texW w h).GetHP = 100 ∧ (PlayerShip texW w h).IsAlive = true ∧
    (∀ ds : List Int,
      ((ds.foldl Ship.TakeDamage (PlayerShip texW w h)).IsAlive = true ↔
        (ds.foldl Ship.TakeDamage (PlayerShip texW w h)).GetHP > 0)) ∧
    (∀ (s : Ship) (d : Int), s.IsAlive = false →
      s.TakeDamage d = s ∧ (s.TakeDamage d).GetHP = s.GetHP ∧
      (s.TakeDamage d).IsAlive = false) ∧
    (∀ (s : Ship) (ds : List Int), s.IsAlive = false → ds.foldl Ship.TakeDamage s = s) := by
  have hdead : ∀ (s : Ship) (d : Int), s.IsAlive = false → s.TakeDamage d = s := by
    intro s d hs
    simp only [Ship.IsAlive] at hs
    simp [Ship.TakeDamage, hs]
  refine ⟨rfl, rfl, ?_, ?_, ?_⟩
  · have key : ∀ (ds : List Int) (s : Ship), (s.IsAlive = true ↔ s.GetHP > 0) →
        ((ds.foldl Ship.TakeDamage s).IsAlive = true ↔
          (ds.foldl Ship.TakeDamage s).GetHP > 0) := by
      intro ds
      induction ds with
      | nil => intro s hs; exact hs
      | cons d rest ih =>
        intro s hs
        exact ih (s.TakeDamage d) (Ship.TakeDamage_alive_iff s d hs)
    intro ds
    exact key ds (PlayerShip texW w h) (by simp [PlayerShip, Ship.IsAlive, Ship.GetHP])
  · intro s d hs
    rw [hdead s d hs]
    exact ⟨rfl, rfl, hs⟩
  · intro s ds
    induction ds with
    | nil => intro _; rfl
    | cons d rest ih =>
      intro hs
      rw [List.foldl_cons, hdead s d hs]
      exact ih hs

/-- C13 on a run of the program's amounts: a new ship hit for 60, healed by 25, hit
for 60 and 40 is dead with hp -35, and a heal of 25 after that changes nothing. -/
theorem C13_alive_iff_hp_positive_witness :
    ([60, -25, 60] : List Int).foldl Ship.TakeDamage (PlayerShip 512 2500 1300)
      = { PlayerShip 512 2500 1300 with hp := 5 } ∧
    (([60, -25, 60, 40] : List Int).foldl Ship.TakeDamage (PlayerShip 512 2500 1300)).GetHP
      = -35 ∧
    (([60, -25, 60, 40] : List Int).foldl Ship.TakeDamage (PlayerShip 512 2500 1300)).IsAlive
      = false ∧
    (((([60, -25, 60, 40] : List Int).foldl Ship.TakeDamage
        (PlayerShip 512 2500 1300)).TakeDamage (-25))
      = ([60, -25, 60, 40] : List Int).foldl Ship.TakeDamage (PlayerShip 512 2500 1300)) ∧
    ((([60, -25, 60, 40] : List Int).foldl Ship.TakeDamage (PlayerShip 512 2500 1300)).IsAlive
        = true ↔
      (([60, -25, 60, 40] : List Int).foldl Ship.TakeDamage (PlayerShip 512 2500 1300)).GetHP
        > 0) :=
  ⟨by decide!, by decide!, by decide!,
    ((C13_alive_iff_hp_positive 512 2500 1300).2.2.2.1 _ (-25) (by decide!)).1,
    (C13_alive_iff_hp_positive 512 2500 1300).2.2.1 [60, -25, 60, 40]⟩

/-- C14: in every state reachable by the simulation loop from its initial state the
asteroid collection holds at most one Boss, and whenever it holds a Boss `bossSpawned`
is true; the boss spawn check, the projectile-asteroid pass, the asteroid-ship pass,
the restart step and the whole frame each preserve this. -/
theorem C14_boss_invariant (pf : Platform) :
    (∀ s : State, Reachable pf s →
      bossCount s.asteroids ≤ 1 ∧ (0 < bossCount s.asteroids → s.bossSpawned = true)) ∧
    (∀ (inp : FrameInput) (s : State), bossInv s → bossInv (bossSpawnCheck pf inp s)) ∧
    (∀ s : State, bossInv s → bossInv (projectileAsteroidPass s)) ∧
    (∀ (inp : FrameInput) (s : State), bossInv s → bossInv (asteroidShipPass inp s)) ∧
    (∀ (inp : FrameInput) (s : State), bossInv s → bossInv (restartStep pf inp s)) ∧
    (∀ (fuel : Nat) (inp : FrameInput) (s s1 : State),
      bossInv s → frame pf fuel inp s = some s1 → bossInv s1) := by
  refine ⟨?_, bossInv_bossSpawnCheck pf, bossInv_projectileAsteroidPass,
    bossInv_asteroidShipPass, bossInv_restartStep pf, bossInv_frame pf⟩
  intro s hs
  show bossInv s
  induction hs with
  | init r => exact ⟨by simp [initialState, bossCount], by simp [initialState, bossCount]⟩
  | step fuel inp s s1 _ hf ih => exact bossInv_frame pf fuel inp s s1 ih hf

/-- C14 on the state one frame after the start, which is reachable, and on the boss
spawn check at 50 destroyed, which takes the collection from no Boss to one Boss. -/
theorem C14_boss_invariant_witness :
    (bossCount stateFrame1.asteroids ≤ 1 ∧
      (0 < bossCount stateFrame1.asteroids → stateFrame1.bossSpawned = true)) ∧
    bossInv (bossSpawnCheck platform0 input0 { state49 with asteroidsDestroyed := 50 }) ∧
    bossCount (bossSpawnCheck platform0 input0
      { state49 with asteroidsDestroyed := 50 }).asteroids = 1 :=
  ⟨(C14_boss_invariant platform0).1 stateFrame1
      (Reachable.step 0 input0 (initialState platform0 0) stateFrame1 (Reachable.init 0)
        (by decide!)),
    (C14_boss_invariant platform0).2.1 input0 { state49 with asteroidsDestroyed := 50 }
      (by decide!),
    by decide!⟩

/-- C12: for every positive screen size, every libm whose `sinf` and `cosf` stay in
[-1, 1] and whose `sqrtf` is positive on positive numbers, and every outcome of the
random draws of `Asteroid::init` (each `rand()` at most `RAND_MAX`), the position
`init` sets lies on the line of the drawn screen edge moved outward by the spawn radius
`16 * size` (y = -r, x = w + r, y = h + r or x = -r), with the other coordinate in
`[0, w]` resp. `[0, h]`, and the velocity has a strictly positive dot product with
that edge's inward normal; the four variants `MakeAsteroid` builds keep that position
and velocity. -/
theorem C12_spawn_on_edge_heading_inward (m : Libm) (hm : m.wellBehaved) (randMax : Nat)
    (hR : 0 < randMax) (w h : Int) (hw : 0 < w) (hh : 0 < h) (d : InitDraws)
    (hpos : d.posRand ≤ randMax) (hrad : d.radRand ≤ randMax)
    (hspeed : d.speedRand ≤ randMax) :
    (∀ cls : AsteroidClass,
      onSpawnEdge d.edgeDraw w h (16 * ((Asteroid.init m randMax cls w h d).GetSize : ℚ))
        (Asteroid.init m randMax cls w h d).GetPosition ∧
      0 < Vector2DotProduct (Asteroid.init m randMax cls w h d).physics.velocity
            (edgeInwardNormal d.edgeDraw)) ∧
    (∀ (shape : AsteroidShape) (shapeDraw : Fin 4),
      onSpawnEdge d.edgeDraw w h
        (16 * ((MakeAsteroid m randMax w h shape shapeDraw d).GetSize : ℚ))
        (MakeAsteroid m randMax w h shape shapeDraw d).GetPosition ∧
      0 < Vector2DotProduct (MakeAsteroid m randMax w h shape shapeDraw d).physics.velocity
            (edgeInwardNormal d.edgeDraw) ∧
      (MakeAsteroid m randMax w h shape shapeDraw d).GetRadius
        = 16 * ((MakeAsteroid m randMax w h shape shapeDraw d).GetSize : ℚ)) := by
  have hinit : ∀ cls : AsteroidClass,
      onSpawnEdge d.edgeDraw w h (16 * ((Asteroid.init m randMax cls w h d).GetSize : ℚ))
        (Asteroid.init m randMax cls w h d).GetPosition ∧
      0 < Vector2DotProduct (Asteroid.init m randMax cls w h d).physics.velocity
            (edgeInwardNormal d.edgeDraw) :=
    fun cls => Asteroid.init_spawn m hm randMax hR cls w h hw hh d hpos hrad hspeed
  refine ⟨hinit, ?_⟩
  intro shape shapeDraw
  have key : ∀ a : Asteroid,
      (a = TriangleAsteroid m randMax w h d ∨ a = SquareAsteroid m randMax w h d ∨
        a = PentagonAsteroid m randMax w h d ∨ a = OctagonAsteroid m randMax w h d) →
      onSpawnEdge d.edgeDraw w h (16 * (a.GetSize : ℚ)) a.GetPosition ∧
      0 < Vector2DotProduct a.physics.velocity (edgeInwardNormal d.edgeDraw) ∧
      a.GetRadius = 16 * (a.GetSize : ℚ) := by
    intro a ha
    rcases ha with rfl | rfl | rfl | rfl
    · exact ⟨(hinit AsteroidClass.Triangle).1, (hinit AsteroidClass.Triangle).2, rfl⟩
    · exact ⟨(hinit AsteroidClass.Square).1, (hinit AsteroidClass.Square).2, rfl⟩
    · exact ⟨(hinit AsteroidClass.Pentagon).1, (hinit AsteroidClass.Pentagon).2, rfl⟩
    · exact ⟨(hinit AsteroidClass.Octagon).1, (hinit AsteroidClass.Octagon).2, rfl⟩
  apply key
  unfold MakeAsteroid
  cases shape
  · exact Or.inl rfl
  · exact Or.inr (Or.inl rfl)
  · exact Or.inr (Or.inr (Or.inl rfl))
  · exact Or.inr (Or.inr (Or.inr rfl))
  · fin_cases shapeDraw
    · exact Or.inl rfl
    · exact Or.inr (Or.inl rfl)
    · exact Or.inr (Or.inr (Or.inl rfl))
    · exact Or.inr (Or.inr (Or.inr rfl))

/-- The stand-in `libm1` has the properties the spawn geometry uses. -/
theorem libm1_wellBehaved : libm1.wellBehaved := by
  refine ⟨fun x => ?_, fun x => ?_, fun y hy => ?_⟩
  · simp [libm1, libm0]
  · simp [libm1, libm0]
  · simp only [libm1, hy, if_true]
    linarith

/-- C12 on a 2500 x 1300 screen with every draw 0: a small asteroid spawned on the top
edge line y = -16 at x = 0, heading down into the screen. -/
theorem C12_spawn_on_edge_heading_inward_witness :
    (∀ cls : AsteroidClass,
      onSpawnEdge draws0.edgeDraw 2500 1300
        (16 * ((Asteroid.init libm1 32767 cls 2500 1300 draws0).GetSize : ℚ))
        (Asteroid.init libm1 32767 cls 2500 1300 draws0).GetPosition ∧
      0 < Vector2DotProduct (Asteroid.init libm1 32767 cls 2500 1300 draws0).physics.velocity
            (edgeInwardNormal draws0.edgeDraw)) ∧
    (∀ (shape : AsteroidShape) (shapeDraw : Fin 4),
      onSpawnEdge draws0.edgeDraw 2500 1300
        (16 * ((MakeAsteroid libm1 32767 2500 1300 shape shapeDraw draws0).GetSize : ℚ))
        (MakeAsteroid libm1 32767 2500 1300 shape shapeDraw draws0).GetPosition ∧
      0 < Vector2DotProduct
            (MakeAsteroid libm1 32767 2500 1300 shape shapeDraw draws0).physics.velocity
            (edgeInwardNormal draws0.edgeDraw) ∧
      (MakeAsteroid libm1 32767 2500 1300 shape shapeDraw draws0).GetRadius
        = 16 * ((MakeAsteroid libm1 32767 2500 1300 shape shapeDraw draws0).GetSize : ℚ)) :=
  C12_spawn_on_edge_heading_inward libm1 libm1_wellBehaved 32767 (by decide) 2500 1300
    (by decide) (by decide) draws0 (by decide) (by decide) (by decide)

/-- C11 (as stated, refuted): on `stateTriple` triple-shot is inactive and the first
frame collects the TripleShot pickup, which arms (true, 5). The next frame, of 5 s,
lets the 5 s run out and collects a newly spawned TripleShot pickup. In the frame after
that the frame times since the first collection sum to 5 + 1/10, not below 5, yet the
fire control runs with triple-shot active and its 2 shot events append 8 projectiles. -/
theorem C11_rearmed_after_five_seconds :
    stateTriple.tripleShotActive = false ∧
    collectsTripleShot platform0 2 inputCollect stateTriple = true ∧
    (runFrames platform0 2 [inputCollect] stateTriple).map tripleOf = some (true, 5) ∧
    ¬ (inputRespawn.dt + inputFire.dt < 5) ∧
    (runFrames platform0 2 [inputCollect, inputRespawn] stateTriple).map
        (fireControlTripleShot inputFire) = some true ∧
    ((runFrames platform0 2 [inputCollect, inputRespawn] stateTriple).bind
        (frameHead platform0 2 inputFire)).map (fun s => s.projectiles.length) = some 8 ∧
    (runFrames platform0 2 [inputCollect] stateTriple).map
        (collectsTripleShot platform0 2 inputRespawn) = some true := by
  decide!

/-- C11 (amended): a collected TripleShot pickup arms triple-shot at (active, 5 s),
whatever the fields were, and is removed. From a state just armed, over later frames
with `dt ≥ 0` none of which collects a further TripleShot pickup, the fire control of a
frame runs with triple-shot active exactly when the frame times since the collection,
that frame's included, sum to less than 5; a shot event then appends 4 projectiles,
and 2 otherwise. A frame that collects a TripleShot pickup arms the fields again. -/
theorem C11_triple_shot_five_seconds (pf : Platform) (fuel : Nat) (inps : List FrameInput)
    (inp : FrameInput) (s sk : State)
    (hactive : s.tripleShotActive = true) (htimer : s.tripleShotTimer = 5)
    (hdt : ∀ i ∈ inps ++ [inp], 0 ≤ i.dt)
    (hno : collectsNoTripleShot pf fuel inps s = true)
    (hrun : runFrames pf fuel inps s = some sk) :
    (fireControlTripleShot inp sk = decide ((inps.map FrameInput.dt).sum + inp.dt < 5) ∧
      frameHead pf fuel inp sk = shootingStep pf fuel inp (frameBeforeShooting pf inp sk) ∧
      (frameBeforeShooting pf inp sk).tripleShotActive = fireControlTripleShot inp sk ∧
      (∀ (player : Ship) (w : WeaponType) (v : ℚ) (ps : List Projectile),
        (shotEvent pf.m player w v (fireControlTripleShot inp sk) ps).length
          = ps.length + (if (inps.map FrameInput.dt).sum + inp.dt < 5 then 4 else 2))) ∧
    (∀ (dt : ℚ) (s0 : State) (pk : Pickup), pickupInRange s0.player pk = true →
      pk.GetType = PickupType.TRIPLESHOT →
      (pickupCollect dt s0 pk).1.tripleShotActive = true ∧
      (pickupCollect dt s0 pk).1.tripleShotTimer = 5 ∧ (pickupCollect dt s0 pk).2 = none) ∧
    (∀ (inp0 : FrameInput) (s0 s1 : State), frame pf fuel inp0 s0 = some s1 →
      collectsTripleShot pf fuel inp0 s0 = true →
      s1.tripleShotActive = true ∧ s1.tripleShotTimer = 5) := by
  have harmed : tripleOf s = (decide ((0 : ℚ) < 5), if (0 : ℚ) < 5 then 5 - 0 else
      s.tripleShotTimer) := by
    simp [tripleOf, hactive, htimer]
  have hk := runFrames_armed pf fuel inps s sk 0 harmed
    (fun i hi => hdt i (List.mem_append_left _ hi)) hno hrun
  rw [zero_add] at hk
  have hflag : fireControlTripleShot inp sk
      = decide ((inps.map FrameInput.dt).sum + inp.dt < 5) :=
    (timersStep_armed inp.dt _ sk (hdt inp (by simp)) hk).1
  refine ⟨⟨hflag, frameHead_eq pf fuel inp sk, ?_, ?_⟩, ?_, ?_⟩
  · have := congrArg Prod.fst (frameBeforeShooting_triple pf inp sk)
    simpa [tripleOf, fireControlTripleShot] using this
  · intro player w v ps
    rw [shotEvent_length, hflag]
    by_cases hc : (inps.map FrameInput.dt).sum + inp.dt < 5 <;> simp [hc]
  · intro dt s0 pk hr hty
    have ht := pickupCollect_triple dt s0 pk
    have hin : tripleShotInRange s0.player pk = true := by
      simp [tripleShotInRange, hr, hty]
    rw [hin] at ht
    simp only [if_true, tripleOf, Prod.mk.injEq] at ht
    refine ⟨ht.1, ht.2, ?_⟩
    rw [pickupCollect_kept]
    simp [hr]
  · intro inp0 s0 s1 hf hc
    have ht := frame_triple pf fuel inp0 s0 s1 hf
    rw [hc] at ht
    simp only [if_true, tripleOf, Prod.mk.injEq] at ht
    exact ht

/-- C11 (amended) on `stateArmed`: after a frame of 3 s that collects nothing, a frame
of 1/10 s fires with triple-shot active, the frame times summing to 3 + 1/10 < 5. -/
theorem C11_triple_shot_five_seconds_witness :
    (stateArmed.tripleShotActive = true ∧ stateArmed.tripleShotTimer = 5 ∧
      fireControlTripleShot inputFire
        ((runFrames platform0 2 [inputWait] stateArmed).getD stateArmed) = true ∧
      fireControlTripleShot inputWait
        ((runFrames platform0 2 [inputWait] stateArmed).getD stateArmed) = false) ∧
    (fireControlTripleShot inputFire
        ((runFrames platform0 2 [inputWait] stateArmed).getD stateArmed)
      = decide (([inputWait].map FrameInput.dt).sum + inputFire.dt < 5)) :=
  ⟨by decide!,
    (C11_triple_shot_five_seconds platform0 2 [inputWait] inputFire stateArmed
      ((runFrames platform0 2 [inputWait] stateArmed).getD stateArmed)
      (by decide!) (by decide!)
      (by intro i hi; simp at hi; rcases hi with rfl | rfl <;> norm_num [inputWait, inputFire, input0])
      (by decide!) (by decide!)).1.1⟩

end Asteroids













